import Mathlib

/-!
# Sim2Editor-Core: formal model of the checksum / slot-resolution / validation core

A shallow embedding, in Lean 4, of the save-container core of the
Sim2Editor-Core repository (Sims 2 GBA/NDS save editors): the rolling
byte-sum checksum engine (`shared/checksum.js`, `S2GBACore.hpp`
`Checksum::Calc`, `S2NDSCore.cpp` `Checksum::Calc`), the slot locator
(`FetchSlot`), the container validators, the write-back (`Finish`) path,
and a few representative field setters.

Save buffers are modelled as total functions from byte offsets to stored
byte values; every read is reduced mod 256 (matching `uint8_t` /
`DataView.getUint8` semantics) and every store is reduced mod 256.
-/

namespace Sim2

/-- A save buffer: a total map from byte offsets to stored bytes. -/
def Buf : Type := Nat → Nat

/-- Read of one byte (`uint8_t` / `getUint8`). -/
def getU8 (B : Buf) (o : Nat) : Nat := B o % 256

/-- Store one byte (values are truncated to 8 bits as in `uint8_t`). -/
def setU8 (B : Buf) (o v : Nat) : Buf := fun i => if i = o then v % 256 else B i

/-- Little-endian 16-bit read (`Read<uint16_t>` via `memcpy` / `getUint16`). -/
def read16 (B : Buf) (o : Nat) : Nat := getU8 B o + 256 * getU8 B (o + 1)

/-- Little-endian 16-bit write (`Write<uint16_t>`: store low byte, shift, store high byte). -/
def write16 (B : Buf) (o v : Nat) : Buf := setU8 (setU8 B o v) (o + 1) (v / 256)

/-- Little-endian 32-bit read (`Read<uint32_t>`), used for the save counter. -/
def read32 (B : Buf) (o : Nat) : Nat :=
  getU8 B o + 256 * getU8 B (o + 1) + 65536 * getU8 B (o + 2) + 16777216 * getU8 B (o + 3)

/-- Little-endian 32-bit write (`Write<uint32_t>`). -/
def write32 (B : Buf) (o v : Nat) : Buf :=
  setU8 (setU8 (setU8 (setU8 B o v) (o + 1) (v / 256)) (o + 2) (v / 65536)) (o + 3) (v / 16777216)

/-- The word indices `[start, end)` walked by a checksum loop
(offsets are 16-bit-word indices, i.e. byte offsets divided by 2). -/
def wordRange (startOffs endOffs : Nat) : List Nat := List.range' startOffs (endOffs - startOffs)

/-!
## Checksum engine

`shared/checksum.js` `Checksum_Calc` (the JS core) and
`S2NDSCore.cpp` / `S2GBACore.hpp` `Checksum::Calc` (the C++ cores) walk the
word range accumulating the low bytes into `Byte1` and the high bytes (plus
a carry whenever `Byte1` overflows 255) into `Byte2`, both mod 256.
-/

/-- One iteration of the JS `Checksum_Calc` loop body (checksum.js lines 44-51):
`Byte1 = Byte1 + lo; if (Byte1 > 255) { Byte1 %= 256; Byte2++; }
Byte2 = (Byte2 + hi) % 256;`. -/
def jsStep (B : Buf) (acc : Nat × Nat) (w : Nat) : Nat × Nat :=
  let b1 := acc.1 + getU8 B (2 * w)
  let p := if 255 < b1 then (b1 % 256, acc.2 + 1) else (b1, acc.2)
  (p.1, (p.2 + getU8 B (2 * w + 1)) % 256)

/-- One iteration of the C++ `Checksum::Calc` loop body
(`if (Buffer[Idx*2] + Byte1 > 255) Byte2++; Byte1 += Buffer[Idx*2];
Byte2 += Buffer[Idx*2+1];` with `uint8_t` accumulators). -/
def cppStep (B : Buf) (acc : Nat × Nat) (w : Nat) : Nat × Nat :=
  let lo := getU8 B (2 * w)
  let hi := getU8 B (2 * w + 1)
  let b2 := if 255 < lo + acc.1 then acc.2 + 1 else acc.2
  ((acc.1 + lo) % 256, (b2 + hi) % 256)

/-- The JS checksum loop: fold `jsStep` over the word range, skipping
word indices contained in the skip list (`SkipOffs.includes(Index)`). -/
def jsFold (B : Buf) (skips : List Nat) (ws : List Nat) (acc : Nat × Nat) : Nat × Nat :=
  ws.foldl (fun a w => if w ∈ skips then a else jsStep B a w) acc

/-- The C++ checksum loop: fold `cppStep` over the word range, skipping
word indices contained in the skip list (the `Skip` flag scan in
`S2NDSCore.cpp` sets `Skip` exactly when `Idx` occurs in `SkipOffs`). -/
def cppFold (B : Buf) (skips : List Nat) (ws : List Nat) (acc : Nat × Nat) : Nat × Nat :=
  ws.foldl (fun a w => if w ∈ skips then a else cppStep B a w) acc

/-- Finalization of the JS `Checksum_Calc`: after the loop,
`Byte2++; if (Byte2 > 255) Byte2 = 0;` and the result is
`(256 * (256 - Byte2)) + (256 - Byte1)` (a plain JS number, not truncated). -/
def jsFinalize (acc : Nat × Nat) : Nat :=
  256 * (256 - (if 255 < acc.2 + 1 then 0 else acc.2 + 1)) + (256 - acc.1)

/-- The function `Checksum_Calc` of `shared/checksum.js`. -/
def Checksum_Calc (B : Buf) (startOffs endOffs : Nat) (skipOffs : List Nat) : Nat :=
  jsFinalize (jsFold B skipOffs (wordRange startOffs endOffs) (0, 0))

/-- Finalization of the C++ `Checksum::Calc`: `Byte2++;` wraps in `uint8_t`
and the `uint16_t` result is `(256 * (uint8_t)-Byte2) + (uint8_t)-Byte1`. -/
def cppFinalize (acc : Nat × Nat) : Nat :=
  256 * ((256 - (acc.2 + 1) % 256) % 256) + ((256 - acc.1) % 256)

end Sim2

namespace S2NDSCore

open Sim2

/-- The function `Checksum::Calc` of `S2NDSCore.cpp`: `if (!Buffer) return 0;` then the loop;
after it `Byte2++;` (wrapping `uint8_t`) and the `uint16_t` result is
`(256 * (uint8_t)-Byte2) + (uint8_t)-Byte1`. -/
def ChecksumCalc (data : Option Buf) (startOffs endOffs : Nat) (skipOffs : List Nat) : Nat :=
  match data with
  | none => 0
  | some B => cppFinalize (cppFold B skipOffs (wordRange startOffs endOffs) (0, 0))

end S2NDSCore

namespace S2GBACore

open Sim2

/-- The function `Checksum::Calc` of `S2GBACore.hpp`: same loop as the NDS core, but the
skip set is hard-coded: when `SettingsChks` is set, word `0xE / 2` is
skipped; the result is again `(256 * (uint8_t)-Byte2) + (uint8_t)-Byte1`. -/
def ChecksumCalc (data : Option Buf) (startOffs endOffs : Nat) (settingsChks : Bool) : Nat :=
  match data with
  | none => 0
  | some B =>
    cppFinalize (cppFold B (if settingsChks then [0xE / 2] else [])
      (wordRange startOffs endOffs) (0, 0))

end S2GBACore

namespace Sim2

/-!
## Spec-side closed form of the checksum

The claim describes the result as `256 * (256 - Byte2) + (256 - Byte1)` with
`Byte1` the mod-256 sum of the low bytes of the non-skipped words and
`Byte2` the mod-256 sum of the high bytes plus one per `Byte1` carry plus a
final wrapping increment.  The carry count of a running mod-256 accumulator
equals the quotient of the plain sum by 256.
-/

/-- The non-skipped word indices of a checksum range, in walk order. -/
def activeWords (startOffs endOffs : Nat) (skips : List Nat) : List Nat :=
  (wordRange startOffs endOffs).filter (fun w => decide (w ∉ skips))

/-- Sum of the low bytes of a list of words. -/
def sumLow (B : Buf) (ws : List Nat) : Nat := (ws.map (fun w => getU8 B (2 * w))).sum

/-- Sum of the high bytes of a list of words. -/
def sumHigh (B : Buf) (ws : List Nat) : Nat := (ws.map (fun w => getU8 B (2 * w + 1))).sum

/-- Accumulator `Byte1` as the claim describes it: the mod-256 sum of the low bytes of
all non-skipped words. -/
def specByte1 (B : Buf) (s e : Nat) (skips : List Nat) : Nat :=
  sumLow B (activeWords s e skips) % 256

/-- Accumulator `Byte2` as the claim describes it: the mod-256 sum of the high bytes,
plus one per `Byte1` carry, plus a final increment of 1 wrapping to 0. -/
def specByte2 (B : Buf) (s e : Nat) (skips : List Nat) : Nat :=
  (sumHigh B (activeWords s e skips) + sumLow B (activeWords s e skips) / 256 + 1) % 256

/-- The exact result formula stated by the claim:
`256 * (256 - Byte2) + (256 - Byte1)`. -/
def claimFormula (B : Buf) (s e : Nat) (skips : List Nat) : Nat :=
  256 * (256 - specByte2 B s e skips) + (256 - specByte1 B s e skips)

/-- The C++ cores' variant of the formula: each negated accumulator is
itself reduced mod 256 by the `(uint8_t)-` cast. -/
def claimFormulaTrunc (B : Buf) (s e : Nat) (skips : List Nat) : Nat :=
  256 * ((256 - specByte2 B s e skips) % 256) + ((256 - specByte1 B s e skips) % 256)

end Sim2

namespace Sim2

/-!
## NDS slot header checksum (`Checksum_CalcNDSSlotHeader`, shared/checksum.js)

The loop bound `(Slot * 0x1000 + 0x13) / 2` is JS float division
(`slot * 2048 + 9.5`), so the walked word indices are
`slot * 2048 .. slot * 2048 + 9` (ten words, covering bytes
`0x0 .. 0x13` of the region); the word `(Slot * 0x1000 + 0xE) / 2 =
slot * 2048 + 7` is skipped.  There is no unconditional final increment of
`Byte2`: it is incremented once exactly when the byte at region-relative
offset `0x13` is zero, then wrapped to 0 if above 255. -/

/-- Finalization of `Checksum_CalcNDSSlotHeader`: `if (marker == 0) Byte2++;
if (Byte2 > 255) Byte2 = 0;` where `marker` is the byte at `Slot * 0x1000 + 0x13`. -/
def jsHeaderWrap (marker b2 : Nat) : Nat :=
  if 255 < (if marker = 0 then b2 + 1 else b2) then 0 else (if marker = 0 then b2 + 1 else b2)

/-- The function `Checksum_CalcNDSSlotHeader` of `shared/checksum.js`. -/
def Checksum_CalcNDSSlotHeader (B : Buf) (slot : Nat) : Nat :=
  256 * (256 - jsHeaderWrap (getU8 B (slot * 0x1000 + 0x13))
      (jsFold B [slot * 0x1000 / 2 + 7] (List.range' (slot * 0x1000 / 2) 10) (0, 0)).2)
    + (256 - (jsFold B [slot * 0x1000 / 2 + 7] (List.range' (slot * 0x1000 / 2) 10) (0, 0)).1)

/-- The claim formula with no final increment of `Byte2` (used to describe
the marker-nonzero branch of the header routine). -/
def claimFormulaNoInc (B : Buf) (s e : Nat) (skips : List Nat) : Nat :=
  256 * (256 - (sumHigh B (activeWords s e skips) + sumLow B (activeWords s e skips) / 256) % 256)
    + (256 - specByte1 B s e skips)

/-- The claim formula with one EXTRA increment of `Byte2` on top of the
generic algorithm's final increment: what claim C5 predicts the header
routine computes for a marker-zero region. -/
def claimFormulaExtraInc (B : Buf) (s e : Nat) (skips : List Nat) : Nat :=
  256 * (256 - (sumHigh B (activeWords s e skips) + sumLow B (activeWords s e skips) / 256 + 2) % 256)
    + (256 - specByte1 B s e skips)

/-- Magic identifier of a GBA save (`GBAIdent`, 7 bytes, declared both in
`S2GBACore.hpp` and `source/shared/SAVUtils.cpp`). -/
def GBAIdentBytes : List Nat := [0x53, 0x54, 0x57, 0x4E, 0x30, 0x32, 0x34]

/-- Magic identifier of an NDS save slot region (`NDSIdent` / `SlotIdent`,
8 bytes; byte 4 is the region-coded position). -/
def NDSIdentBytes : List Nat := [0x64, 0x61, 0x74, 0x0, 0x20, 0x0, 0x0, 0x0]

end Sim2

/-!
## Compressed GBA core (`cpp/S2GBACore.hpp`)
-/

namespace S2GBACore

open Sim2

/-- State of `S2GBACore::SAV`: the owned buffer (null when loading failed),
its size, the validity flag and the dirty flag. -/
structure SAV where
  data : Option Buf
  size : Nat
  savValid : Bool
  changesMade : Bool

/-- Method `Read<uint16_t>`: guarded by `GetValid()` and `GetData()`, else 0. -/
def Read16 (s : SAV) (o : Nat) : Nat :=
  match s.data, s.savValid with
  | some B, true => read16 B o
  | _, _ => 0

/-- Method `Write<uint16_t>`: guarded by `GetValid()` and `GetData()`;
stores little-endian and raises the dirty flag. -/
def Write16 (s : SAV) (o v : Nat) : SAV :=
  match s.data, s.savValid with
  | some B, true => { s with data := some (write16 B o v), changesMade := true }
  | _, _ => s

/-- Method `Read<uint8_t>`. -/
def Read8 (s : SAV) (o : Nat) : Nat :=
  match s.data, s.savValid with
  | some B, true => getU8 B o
  | _, _ => 0

/-- Method `Write<uint8_t>`. -/
def Write8 (s : SAV) (o v : Nat) : SAV :=
  match s.data, s.savValid with
  | some B, true => { s with data := some (setU8 B o v), changesMade := true }
  | _, _ => s

/-- Method `Read<uint32_t>`. -/
def Read32 (s : SAV) (o : Nat) : Nat :=
  match s.data, s.savValid with
  | some B, true => read32 B o
  | _, _ => 0

/-- Method `Write<uint32_t>`. -/
def Write32 (s : SAV) (o v : Nat) : SAV :=
  match s.data, s.savValid with
  | some B, true => { s with data := some (write32 B o v), changesMade := true }
  | _, _ => s

/-- Method `ReadBits`: low nibble (`& 0xF`) when `First`, else high nibble (`>> 4`). -/
def ReadBits (s : SAV) (o : Nat) (first : Bool) : Nat :=
  match s.data, s.savValid with
  | some B, true => if first then getU8 B o % 16 else getU8 B o / 16
  | _, _ => 0

/-- Method `WriteBits`: rejects `Data > 0xF`; merges the nibble into the byte
(`(b & 0xF0) | d` or `(b & 0x0F) | (d << 4)`) and raises the dirty flag. -/
def WriteBits (s : SAV) (o : Nat) (first : Bool) (d : Nat) : SAV :=
  match s.data, s.savValid with
  | some B, true =>
    if 15 < d then s
    else { s with
      data := some (setU8 B o (if first then getU8 B o / 16 * 16 + d else getU8 B o % 16 + d * 16)),
      changesMade := true }
  | _, _ => s

/-- Buffer-level slot-slot checksum of the compressed GBA core:
`Checksum::Calc(data, Offs / 2, (Offs + 0xFFE) / 2, false)` with
`Offs = Slot * 0x1000` (from `Slot::FixChecksum`). -/
def slotCalcB (B : Buf) (slot : Nat) : Nat :=
  ChecksumCalc (some B) (slot * 0x1000 / 2) ((slot * 0x1000 + 0xFFE) / 2) false

/-- Buffer-level settings checksum: `Checksum::Calc(data, 0x0, 0x18 / 2, true)`
(from `Settings::UpdateChecksum`). -/
def settingsCalcB (B : Buf) : Nat := ChecksumCalc (some B) 0 (0x18 / 2) true

/-- Method `SAV::SlotExist` (buffer part): some byte among the first 10 of
the slot region is nonzero. -/
def slotExistB (B : Buf) (slot : Nat) : Bool :=
  if slot < 1 || 4 < slot then false
  else (List.range 10).any (fun i => decide (getU8 B (slot * 0x1000 + i) ≠ 0))

/-- Method `SAV::SlotExist`.  (The C++ reads the buffer unguarded; it is only
reached through `Finish`/`_Slot` on a loaded save, so a missing buffer is
modelled as a nonexistent slot.) -/
def SlotExist (s : SAV) (slot : Nat) : Bool :=
  match s.data with
  | some B => slotExistB B slot
  | none => false

/-- Method `Slot::FixChecksum` for slot `slot` (the `Slot` object carries
`Offs = Slot * 0x1000`): recompute, compare with the stored field at
`Offs + 0xFFE`, rewrite only on mismatch. -/
def FixChecksum (slot : Nat) (s : SAV) : SAV :=
  if ChecksumCalc s.data (slot * 0x1000 / 2) ((slot * 0x1000 + 0xFFE) / 2) false
      = Read16 s (slot * 0x1000 + 0xFFE)
  then s
  else Write16 s (slot * 0x1000 + 0xFFE)
    (ChecksumCalc s.data (slot * 0x1000 / 2) ((slot * 0x1000 + 0xFFE) / 2) false)

/-- Method `Settings::UpdateChecksum`: same compare-and-fix over the header
range `[0x0, 0x18 / 2)` with the hard-coded settings skip, field at `0xE`. -/
def UpdateChecksum (s : SAV) : SAV :=
  if ChecksumCalc s.data 0 (0x18 / 2) true = Read16 s 0xE
  then s
  else Write16 s 0xE (ChecksumCalc s.data 0 (0x18 / 2) true)

/-- One iteration of the `Finish` slot loop:
`if (this->SlotExist(Slt)) this->_Slot(Slt)->FixChecksum();`. -/
def FinishStep (slot : Nat) (s : SAV) : SAV :=
  if SlotExist s slot then FixChecksum slot s else s

/-- Method `SAV::Finish`: no-op when invalid; otherwise fix slots 1..4 in
order, then update the settings checksum. -/
def Finish (s : SAV) : SAV :=
  if s.savValid
  then UpdateChecksum (FinishStep 4 (FinishStep 3 (FinishStep 2 (FinishStep 1 s))))
  else s

/-- Buffer-level form of `FixChecksum` on a loaded, valid save. -/
def fixB (slot : Nat) (B : Buf) : Buf :=
  if slotCalcB B slot = read16 B (slot * 0x1000 + 0xFFE) then B
  else write16 B (slot * 0x1000 + 0xFFE) (slotCalcB B slot)

/-- Buffer-level form of `UpdateChecksum` on a loaded, valid save. -/
def updSettingsB (B : Buf) : Buf :=
  if settingsCalcB B = read16 B 0xE then B else write16 B 0xE (settingsCalcB B)

/-- Buffer-level form of `FinishStep` on a loaded, valid save. -/
def finStepB (slot : Nat) (B : Buf) : Buf :=
  if slotExistB B slot then fixB slot B else B

/-- Buffer-level form of `Finish` on a loaded, valid save. -/
def finishB (B : Buf) : Buf :=
  updSettingsB (finStepB 4 (finStepB 3 (finStepB 2 (finStepB 1 B))))

/-- Access trace of the `GBAIdent` magic array during the compressed core's
`SAV::ValidationCheck` header loop (`for (Idx = 0; Idx < 8; Idx++)`, breaking
at the first mismatching byte).  Each visited loop index reads
`GBAIdent[Idx]`; the comparison value for an out-of-bounds index is
irrelevant to the trace because the loop ends after index 7 regardless. -/
def identScan (B : Buf) : Nat → Nat → List Nat
  | _, 0 => []
  | idx, n + 1 =>
    idx :: (if getU8 B idx = GBAIdentBytes.getD idx 0 then identScan B (idx + 1) n else [])

/-- Indices of `GBAIdent` read by the `ValidationCheck` header loop. -/
def validationIdentReads (B : Buf) : List Nat := identScan B 0 8

/-- Getter `Slot::Shirtcolor3`: high-nibble parity of byte `Offs + 0x1D`
selects a +16 offset, plus the low nibble. -/
def Shirtcolor3 (offs : Nat) (s : SAV) : Nat :=
  (if ReadBits s (offs + 0x1D) false % 2 = 1 then 16 else 0) + ReadBits s (offs + 0x1D) true

/-- Setter `Slot::Hairstyle`: `if (V > 7) return;` else write
`V * 2 + (Shirtcolor3() > 15 ? 1 : 0)` into the high nibble of `Offs + 0x1D`. -/
def HairstyleSet (offs : Nat) (s : SAV) (v : Nat) : SAV :=
  if 7 < v then s
  else WriteBits s (offs + 0x1D) false (v * 2 + (if 15 < Shirtcolor3 offs s then 1 else 0))

/-- Getter `Slot::Simoleons`: `Read<uint32_t>(Offs + 0x5) >> 8`. -/
def SimoleonsGet (offs : Nat) (s : SAV) : Nat := Read32 s (offs + 0x5) / 256

/-- Setter `Slot::Simoleons`: `Write<uint32_t>(Offs + 0x5, min(999999, V) << 8)`. -/
def SimoleonsSet (offs : Nat) (s : SAV) (v : Nat) : SAV :=
  Write32 s (offs + 0x5) (min 999999 v * 256)

/-- Lookup table `Settings::SFXLevels`. -/
def SFXLevels : List Nat := [0x0, 0x0C, 0x18, 0x24, 0x30, 0x3C, 0x48, 0x54, 0x60, 0x6C, 0x80]

/-- Setter `Settings::SFX`: `if (V > 10) return;` else store `SFXLevels[V]`
at offset `0x8`. -/
def SFXSet (s : SAV) (v : Nat) : SAV :=
  if 10 < v then s else Write8 s 0x8 (SFXLevels.getD v 0)

/-- Getter `Settings::SFX`: `Read<uint8_t>(0x8)`. -/
def SFXGet (s : SAV) : Nat := Read8 s 0x8

end S2GBACore

/-!
## Compressed NDS core (`cpp/S2NDSCore.cpp`, `cpp/S2NDSCore.hpp`)
-/

namespace S2NDSCore

open Sim2

/-- State of `S2NDSCore::SAV`: buffer, size, validity, dirty flag, region
(0 unknown, 1 international, 2 japanese) and the three resolved slot
locations (`int8_t Slots[3]`, `-1` meaning absent). -/
structure SAV where
  data : Option Buf
  size : Nat
  savValid : Bool
  changesMade : Bool
  region : Nat
  slots : Nat → Int

/-- Method `Read<uint16_t>` (guards as in the GBA core). -/
def Read16 (s : SAV) (o : Nat) : Nat :=
  match s.data, s.savValid with
  | some B, true => read16 B o
  | _, _ => 0

/-- Method `Write<uint16_t>`. -/
def Write16 (s : SAV) (o v : Nat) : SAV :=
  match s.data, s.savValid with
  | some B, true => { s with data := some (write16 B o v), changesMade := true }
  | _, _ => s

/-- One identifier comparison of the `FetchSlot` scan:
`Buffer[Slot * 0x1000 + ID] == SlotIdent[ID] + (ID == 0x4 ? Reg : 0x0)`. -/
def idMatch (B : Buf) (slot reg id : Nat) : Bool :=
  decide (getU8 B (slot * 0x1000 + id) = NDSIdentBytes.getD id 0 + (if id = 4 then reg else 0))

/-- Number of identifier matches of a candidate region (`IDCount`). -/
def idCount (B : Buf) (slot reg : Nat) : Nat :=
  ((List.range 8).filter (fun id => idMatch B slot reg id)).length

/-- The slot-claim test: the bytes at region offsets `0xC` and `0xD` sum to
the requested logical slot id. -/
def claimsSlot (B : Buf) (slot savSlot : Nat) : Bool :=
  decide (getU8 B (slot * 0x1000 + 0xC) + getU8 B (slot * 0x1000 + 0xD) = savSlot)

/-- The 32-bit save counter of a candidate region (`Read<uint32_t>` at
region offset `0x8`). -/
def savCount (B : Buf) (slot : Nat) : Nat := read32 B (slot * 0x1000 + 0x8)

/-- A region is recorded in `SavSlotExist` iff all 8 identifier bytes match
and it claims the requested logical slot. -/
def slotCandidate (B : Buf) (savSlot reg slot : Nat) : Bool :=
  idCount B slot reg == 8 && claimsSlot B slot savSlot

/-- Selection loop of `FetchSlot`: keep the first region whose count is
STRICTLY above the running maximum (`SavCount[Slot] > HighestCount`,
starting from `HighestCount = 0`, `LastSavedSlot = -1`).  The C++ fills
`SavCount` / `SavSlotExist` arrays in a first loop over the same indices;
the arrays are pure functions of the buffer, so the loops are fused here. -/
def fetchFold (B : Buf) (savSlot reg : Nat) (slots : List Nat) (acc : Nat × Int) : Nat × Int :=
  slots.foldl
    (fun a slot =>
      if slotCandidate B savSlot reg slot && decide (a.1 < savCount B slot)
      then (savCount B slot, (slot : Int)) else a) acc

/-- Method `SAV::FetchSlot` (also `NDSSAV::FetchSlot` in
`source/nds/NDSSav.cpp`; the JS `FetchSlot` is the `reg = 0` case). -/
def FetchSlot (B : Buf) (savSlot reg : Nat) : Int :=
  (fetchFold B savSlot reg [0, 1, 2, 3, 4] (0, -1)).2

/-- One identifier comparison of `ValidationCheck`: byte 4 may match any of
the three region-coded values `0x20 + Reg`, the rest must match exactly. -/
def regionMatchId (B : Buf) (slot id : Nat) : Bool :=
  if id = 4
  then decide (getU8 B (slot * 0x1000 + 4) = 0x20) || decide (getU8 B (slot * 0x1000 + 4) = 0x21)
    || decide (getU8 B (slot * 0x1000 + 4) = 0x22)
  else decide (getU8 B (slot * 0x1000 + id) = NDSIdentBytes.getD id 0)

/-- A candidate region fully matches the identifier (`Count == 8`). -/
def regionMatch (B : Buf) (slot : Nat) : Bool :=
  (List.range 8).all (regionMatchId B slot)

/-- The `Reg` loop variable left behind by the byte-4 scan of the matching
region: the matched offset (0..2). -/
def regOf (B : Buf) (slot : Nat) : Nat :=
  if getU8 B (slot * 0x1000 + 4) = 0x20 then 0
  else if getU8 B (slot * 0x1000 + 4) = 0x21 then 1
  else if getU8 B (slot * 0x1000 + 4) = 0x22 then 2
  else 3

/-- The first of the five candidate regions matching the identifier
(the `Slot` loop of `ValidationCheck` breaks at the first `Count == 8`). -/
def firstRegion (B : Buf) : Option Nat := [0, 1, 2, 3, 4].find? (regionMatch B)

/-- Constructor way 2 (`SAV(Data, Size)`, `S2NDSCore.hpp`): take the buffer
and run `ValidationCheck`, which scans the five regions, sets the region
from the leaked `Reg` value and fetches the three logical slots. -/
def mkSAV (B : Buf) (size : Nat) : SAV :=
  match firstRegion B with
  | some slot =>
    { data := some B, size := size, savValid := true, changesMade := false,
      region := if regOf B slot = 2 then 2 else 1,
      slots := fun i => if i < 3 then FetchSlot B i (regOf B slot) else -1 }
  | none =>
    { data := some B, size := size, savValid := false, changesMade := false,
      region := 0, slots := fun _ => -1 }

/-- File constructor (`SAV::SAV(const std::string &)`, `S2NDSCore.cpp`, and
likewise `NDSSAV::NDSSAV` in `source/nds/NDSSav.cpp`): only sizes `0x40000`
and `0x80000` are accepted; otherwise no buffer is taken over and the save
stays invalid. -/
def loadFile (B : Buf) (size : Nat) : SAV :=
  if size = 0x40000 ∨ size = 0x80000 then mkSAV B size
  else
    { data := none, size := size, savValid := false, changesMade := false,
      region := 0, slots := fun _ => -1 }

/-- Conversion of an `int8_t` slot location to the `uint8_t` constructor
argument of `Slot` (two's-complement bit pattern). -/
def toRegion (i : Int) : Nat := (i % 256).toNat

/-- Method `SAV::SlotExist`: logical slots 0..2 only, requires validity and
a resolved location. -/
def SlotExist (s : SAV) (slot : Nat) : Bool :=
  if 2 < slot || !s.savValid then false else decide (s.slots slot ≠ -1)

/-- Buffer-level slot checksum: `Checksum::Calc(data, (Offs + 0x10) / 2,
(Offs + 0x1000) / 2, {(Offs + 0x12) / 2, (Offs + 0x28) / 2})` with
`Offs = region * 0x1000` (from `Slot::FixChecksum`). -/
def slotCalcB (B : Buf) (r : Nat) : Nat :=
  ChecksumCalc (some B) ((r * 0x1000 + 0x10) / 2) ((r * 0x1000 + 0x1000) / 2)
    [(r * 0x1000 + 0x12) / 2, (r * 0x1000 + 0x28) / 2]

/-- Method `Slot::FixChecksum` for the slot object at region `r`: compare
with the stored field at `Offs + 0x28`, rewrite only on mismatch. -/
def FixChecksum (r : Nat) (s : SAV) : SAV :=
  if ChecksumCalc s.data ((r * 0x1000 + 0x10) / 2) ((r * 0x1000 + 0x1000) / 2)
      [(r * 0x1000 + 0x12) / 2, (r * 0x1000 + 0x28) / 2] = Read16 s (r * 0x1000 + 0x28)
  then s
  else Write16 s (r * 0x1000 + 0x28)
    (ChecksumCalc s.data ((r * 0x1000 + 0x10) / 2) ((r * 0x1000 + 0x1000) / 2)
      [(r * 0x1000 + 0x12) / 2, (r * 0x1000 + 0x28) / 2])

/-- One iteration of the `Finish` loop:
`if (this->SlotExist(Slot)) this->_Slot(Slot)->FixChecksum();` where the
`Slot` object is built from `Slots[Slot]`. -/
def FinishStep (slot : Nat) (s : SAV) : SAV :=
  if SlotExist s slot then FixChecksum (toRegion (s.slots slot)) s else s

/-- Method `SAV::Finish` of the compressed NDS core: no-op when invalid,
else fix the checksums of the resolved logical slots 0..2 in order. -/
def Finish (s : SAV) : SAV :=
  if s.savValid then FinishStep 2 (FinishStep 1 (FinishStep 0 s)) else s

/-- Buffer-level form of `FixChecksum` on a loaded, valid save. -/
def fixB (r : Nat) (B : Buf) : Buf :=
  if slotCalcB B r = read16 B (r * 0x1000 + 0x28) then B
  else write16 B (r * 0x1000 + 0x28) (slotCalcB B r)

/-- Buffer-level form of `FinishStep` on a loaded, valid save with slot
table `sl`. -/
def finStepB (sl : Nat → Int) (slot : Nat) (B : Buf) : Buf :=
  if 2 < slot then B
  else if sl slot = -1 then B else fixB (toRegion (sl slot)) B

/-- Buffer-level form of `Finish` on a loaded, valid save. -/
def finishB (sl : Nat → Int) (B : Buf) : Buf :=
  finStepB sl 2 (finStepB sl 1 (finStepB sl 0 B))

end S2NDSCore

/-!
## Source-tree GBA loader (`source/gba/GBASav.cpp`) and the shared type
detector (`source/shared/SAVUtils.cpp`)
-/

namespace S2Editor

open Sim2

/-- State of `S2Editor::GBASAV`. -/
structure GBASAV where
  data : Option Buf
  size : Nat
  savValid : Bool
  changesMade : Bool

/-- Method `GBASAV::ValidationCheck` (`source/gba/GBASav.cpp` lines 55-74):
compare the first 7 bytes with `GBAIdent` (break at first mismatch); clamp
an out-of-range language byte at `0xA` to 0 marking the container dirty;
set the validity flag from the magic comparison.  No size check happens
here or in the `GBASAV` constructor. -/
def ValidationCheck (s : GBASAV) : GBASAV :=
  match s.data with
  | none => s
  | some B =>
    { s with
      savValid := (List.range 7).all (fun i => decide (getU8 B i = GBAIdentBytes.getD i 0)),
      data := some (if 5 < getU8 B 0xA then setU8 B 0xA 0 else B),
      changesMade := if 5 < getU8 B 0xA then true else s.changesMade }

/-- Constructor `GBASAV::GBASAV(const std::string &)` (lines 36-50): read the
whole file of whatever size it has, then run `ValidationCheck`. -/
def loadFile (B : Buf) (size : Nat) : GBASAV :=
  ValidationCheck { data := some B, size := size, savValid := false, changesMade := false }

/-- Save types of `SAVUtils::DetectType`. -/
inductive SAVType | GBA | NDS | NONE
deriving DecidableEq

/-- Function `SAVUtils::DetectType(Data, Size)` (`source/shared/SAVUtils.cpp`):
switch on the size whitelist, then check the GBA 7-byte magic, or scan the
five NDS candidate regions for an exact 8-byte `NDSIdent` match; any other
size yields `_NONE` (so `LoadSAV` returns false with no container built). -/
def DetectType (B : Buf) (size : Nat) : SAVType :=
  if size = 0x10000 ∨ size = 0x20000 then
    (if (List.range 7).all (fun i => decide (getU8 B i = GBAIdentBytes.getD i 0))
     then SAVType.GBA else SAVType.NONE)
  else if size = 0x40000 ∨ size = 0x80000 then
    (if [0, 1, 2, 3, 4].any (fun slot =>
        (List.range 8).all (fun id => decide (getU8 B (slot * 0x1000 + id) = NDSIdentBytes.getD id 0)))
     then SAVType.NDS else SAVType.NONE)
  else SAVType.NONE

end S2Editor

/-!
## Concrete buffers and states for counterexamples and witnesses
-/

namespace Sim2

/-- The all-zero buffer. -/
def zeroBuf : Buf := fun _ => 0

/-- A buffer whose first 7 bytes are the GBA magic and all other bytes 0. -/
def gbaMagicBuf : Buf := fun o => GBAIdentBytes.getD o 0

/-- The GBA magic buffer with language byte `0xA` set to the out-of-range
value 7. -/
def gbaMagicLang7Buf : Buf := fun o => if o = 0xA then 7 else GBAIdentBytes.getD o 0

/-- An NDS buffer whose candidate regions 0 and 1 both carry the (exact,
`reg = 0`) slot identifier and claim logical slot 0, with save counters
`c0` and `c1` (single bytes at region offset `0x8`); all else zero. -/
def ndsTwoBuf (c0 c1 : Nat) : Buf := fun o =>
  if o < 8 then NDSIdentBytes.getD o 0
  else if o = 8 then c0
  else if 0x1000 ≤ o ∧ o < 0x1008 then NDSIdentBytes.getD (o - 0x1000) 0
  else if o = 0x1008 then c1
  else 0

/-- An NDS buffer with a single identified region 0 claiming logical slot 0
with save counter `c0`. -/
def ndsOneBuf (c0 : Nat) : Buf := fun o =>
  if o < 8 then NDSIdentBytes.getD o 0
  else if o = 8 then c0
  else 0

/-- A loaded, valid compressed-core GBA state over the all-zero buffer. -/
def gbaZeroState : S2GBACore.SAV :=
  { data := some zeroBuf, size := 0x10000, savValid := true, changesMade := false }

/-- A loaded, valid compressed-core GBA state whose byte `0x8` (the SFX
volume field) holds `0xAA`, a value outside the `SFXLevels` table. -/
def gbaSFXState : S2GBACore.SAV :=
  { data := some (fun o => if o = 0x8 then 0xAA else 0), size := 0x10000,
    savValid := true, changesMade := false }

/-- A loaded, valid compressed-core GBA state for exercising the Simoleons
and Hairstyle setters (all-zero buffer). -/
def gbaSlotState : S2GBACore.SAV :=
  { data := some zeroBuf, size := 0x10000, savValid := true, changesMade := false }

/-- The all-ones buffer (used to exhibit a case where both checksum
accumulators are nonzero). -/
def oneBuf : Buf := fun _ => 1

/-- Region invariant targeted by the write-back path: the stored 16-bit
checksum field of a GBA slot region equals the engine's result over the
region's range. -/
def gbaStoredEq (B : Buf) (slot : Nat) : Prop :=
  read16 B (slot * 0x1000 + 0xFFE) = S2GBACore.slotCalcB B slot

/-- Header invariant: the stored GBA settings checksum equals the engine's
result over the settings range. -/
def gbaSettingsEq (B : Buf) : Prop := read16 B 0xE = S2GBACore.settingsCalcB B

/-- Region invariant for an NDS slot region at physical index `r`. -/
def ndsStoredEq (B : Buf) (r : Nat) : Prop :=
  read16 B (r * 0x1000 + 0x28) = S2NDSCore.slotCalcB B r

/-- Largest save counter among the candidates of list `L` claiming the
requested logical slot (0 when there is none). -/
def maxCandCount (B : Buf) (savSlot reg : Nat) (L : List Nat) : Nat :=
  ((L.filter (S2NDSCore.slotCandidate B savSlot reg)).map (S2NDSCore.savCount B)).foldr max 0

/-- First candidate of `L` claiming the slot whose save counter equals `m`. -/
def firstMaxCand (B : Buf) (savSlot reg : Nat) (L : List Nat) (m : Nat) : Option Nat :=
  L.find? (fun s => S2NDSCore.slotCandidate B savSlot reg s && decide (S2NDSCore.savCount B s = m))

/-- The candidate regions (scan order 0..4) claiming the requested slot. -/
def claimantsList (B : Buf) (savSlot reg : Nat) : List Nat :=
  [0, 1, 2, 3, 4].filter (S2NDSCore.slotCandidate B savSlot reg)

/-- Largest save counter among all claimants of the requested slot. -/
def maxClaimCount (B : Buf) (savSlot reg : Nat) : Nat :=
  maxCandCount B savSlot reg [0, 1, 2, 3, 4]

/-- The scan-order-first claimant achieving the maximal save counter. -/
def firstMaxClaimant (B : Buf) (savSlot reg : Nat) : Option Nat :=
  firstMaxCand B savSlot reg [0, 1, 2, 3, 4] (maxClaimCount B savSlot reg)

/-- A valid NDS container loaded from a buffer with one identified region
claiming logical slot 0 with save counter 1. -/
def ndsWitState : S2NDSCore.SAV := S2NDSCore.mkSAV (ndsOneBuf 1) 0x40000

end Sim2

namespace Sim2

/-! ## Basic lemmas about the buffer primitives and the checksum loops -/

theorem getU8_lt (B : Buf) (o : Nat) : getU8 B o < 256 := Nat.mod_lt _ (by omega)

theorem getU8_setU8_ne (B : Buf) (o v i : Nat) (h : i ≠ o) :
    getU8 (setU8 B o v) i = getU8 B i := by
  simp [getU8, setU8, h]

theorem getU8_setU8_self (B : Buf) (o v : Nat) :
    getU8 (setU8 B o v) o = v % 256 := by
  simp [getU8, setU8]

theorem sumLow_cons (B : Buf) (w : Nat) (ws : List Nat) :
    sumLow B (w :: ws) = getU8 B (2 * w) + sumLow B ws := by
  simp [sumLow]

theorem sumHigh_cons (B : Buf) (w : Nat) (ws : List Nat) :
    sumHigh B (w :: ws) = getU8 B (2 * w + 1) + sumHigh B ws := by
  simp [sumHigh]

/-- The JS loop body agrees with the C++ loop body whenever `Byte1` is a
byte (which it always is at the start of an iteration). -/
theorem jsStep_eq_cppStep (B : Buf) (acc : Nat × Nat) (w : Nat) (h : acc.1 < 256) :
    jsStep B acc w = cppStep B acc w := by
  have hlo := getU8_lt B (2 * w)
  unfold jsStep cppStep
  by_cases hc : 255 < acc.1 + getU8 B (2 * w)
  · have hc' : 255 < getU8 B (2 * w) + acc.1 := by omega
    simp [hc, hc']
  · have hc' : ¬ 255 < getU8 B (2 * w) + acc.1 := by omega
    have hm : (acc.1 + getU8 B (2 * w)) % 256 = acc.1 + getU8 B (2 * w) :=
      Nat.mod_eq_of_lt (by omega)
    simp [hc, hc', hm]

theorem cppStep_fst_lt (B : Buf) (acc : Nat × Nat) (w : Nat) :
    (cppStep B acc w).1 < 256 := by
  unfold cppStep; exact Nat.mod_lt _ (by omega)

theorem cppStep_snd_lt (B : Buf) (acc : Nat × Nat) (w : Nat) :
    (cppStep B acc w).2 < 256 := by
  unfold cppStep
  dsimp only
  exact Nat.mod_lt _ (by omega)

/-- The two loops agree from any byte-valued `Byte1`. -/
theorem jsFold_eq_cppFold (B : Buf) (skips : List Nat) :
    ∀ (ws : List Nat) (acc : Nat × Nat), acc.1 < 256 →
    jsFold B skips ws acc = cppFold B skips ws acc := by
  intro ws
  induction ws with
  | nil => intro acc _; rfl
  | cons w ws ih =>
    intro acc h
    by_cases hw : w ∈ skips
    · have e1 : jsFold B skips (w :: ws) acc = jsFold B skips ws acc := by
        simp [jsFold, hw]
      have e2 : cppFold B skips (w :: ws) acc = cppFold B skips ws acc := by
        simp [cppFold, hw]
      rw [e1, e2]; exact ih acc h
    · have e1 : jsFold B skips (w :: ws) acc = jsFold B skips ws (jsStep B acc w) := by
        simp [jsFold, hw]
      have e2 : cppFold B skips (w :: ws) acc = cppFold B skips ws (cppStep B acc w) := by
        simp [cppFold, hw]
      rw [e1, e2, jsStep_eq_cppStep B acc w h]
      exact ih _ (cppStep_fst_lt B acc w)

/-- Closed form of the C++ checksum loop: from byte-valued accumulators,
`Byte1` becomes the running mod-256 low sum and `Byte2` absorbs the high
sum plus the carries (the quotient of the low sum by 256). -/
theorem cppFold_closed (B : Buf) (skips : List Nat) :
    ∀ (ws : List Nat) (b1 b2 : Nat), b1 < 256 → b2 < 256 →
    cppFold B skips ws (b1, b2) =
      ((b1 + sumLow B (ws.filter (fun w => decide (w ∉ skips)))) % 256,
       (b2 + sumHigh B (ws.filter (fun w => decide (w ∉ skips)))
          + (b1 + sumLow B (ws.filter (fun w => decide (w ∉ skips)))) / 256) % 256) := by
  intro ws
  induction ws with
  | nil =>
    intro b1 b2 h1 h2
    simp only [cppFold, List.foldl_nil, List.filter_nil, sumLow, sumHigh,
      List.map_nil, List.sum_nil, Prod.mk.injEq]
    constructor <;> omega
  | cons w ws ih =>
    intro b1 b2 h1 h2
    by_cases hw : w ∈ skips
    · have e : cppFold B skips (w :: ws) (b1, b2) = cppFold B skips ws (b1, b2) := by
        simp [cppFold, hw]
      rw [e, ih b1 b2 h1 h2]
      simp [List.filter_cons, hw]
    · have hlo := getU8_lt B (2 * w)
      have hhi := getU8_lt B (2 * w + 1)
      have e : cppFold B skips (w :: ws) (b1, b2) = cppFold B skips ws (cppStep B (b1, b2) w) := by
        simp [cppFold, hw]
      have hfil : (w :: ws).filter (fun w => decide (w ∉ skips))
          = w :: ws.filter (fun w => decide (w ∉ skips)) := by
        simp [List.filter_cons, hw]
      rw [e, hfil, sumLow_cons, sumHigh_cons]
      by_cases hc : 255 < getU8 B (2 * w) + b1
      · have estep : cppStep B (b1, b2) w
            = ((b1 + getU8 B (2 * w)) % 256, (b2 + 1 + getU8 B (2 * w + 1)) % 256) := by
          unfold cppStep; simp [hc]
        rw [estep, ih _ _ (Nat.mod_lt _ (by omega)) (Nat.mod_lt _ (by omega))]
        simp only [Prod.mk.injEq]
        constructor <;> omega
      · have estep : cppStep B (b1, b2) w
            = ((b1 + getU8 B (2 * w)) % 256, (b2 + getU8 B (2 * w + 1)) % 256) := by
          unfold cppStep; simp [hc]
        rw [estep, ih _ _ (Nat.mod_lt _ (by omega)) (Nat.mod_lt _ (by omega))]
        simp only [Prod.mk.injEq]
        constructor <;> omega

/-! ## Closed forms of the four checksum implementations -/

/-- The checksum loop over a word range from `(0, 0)`: `Byte1` ends as the
claim's `Byte1`, `Byte2` as the pre-increment accumulator. -/
theorem cppFold_wordRange (B : Buf) (skips : List Nat) (s e : Nat) :
    cppFold B skips (wordRange s e) (0, 0)
      = (specByte1 B s e skips,
         (sumHigh B (activeWords s e skips) + sumLow B (activeWords s e skips) / 256) % 256) := by
  rw [cppFold_closed B skips _ 0 0 (by omega) (by omega)]
  simp [specByte1, activeWords]

theorem wrap_eq_mod (t : Nat) :
    (if 255 < t % 256 + 1 then 0 else t % 256 + 1) = (t + 1) % 256 := by
  by_cases h : 255 < t % 256 + 1 <;> simp [h] <;> omega

/-- The JS engine's `Checksum_Calc` computes exactly the formula of the
claim (with no truncation of either negated accumulator). -/
theorem jsCalc_eq_claimFormula (B : Buf) (s e : Nat) (skips : List Nat) :
    Checksum_Calc B s e skips = claimFormula B s e skips := by
  unfold Checksum_Calc
  rw [jsFold_eq_cppFold B skips _ (0, 0) (by omega), cppFold_wordRange]
  unfold jsFinalize claimFormula specByte2
  rw [wrap_eq_mod]

/-- The NDS C++ engine computes the truncated variant of the formula. -/
theorem ndsCalc_eq_trunc (B : Buf) (s e : Nat) (skips : List Nat) :
    S2NDSCore.ChecksumCalc (some B) s e skips = claimFormulaTrunc B s e skips := by
  unfold S2NDSCore.ChecksumCalc cppFinalize
  dsimp only
  rw [cppFold_wordRange]
  unfold claimFormulaTrunc specByte2
  have e1 : ∀ t : Nat, (t % 256 + 1) % 256 = (t + 1) % 256 := fun t => by omega
  rw [e1]

/-- The GBA C++ engine computes the truncated variant of the formula, with
the hard-coded settings skip list. -/
theorem gbaCalc_eq_trunc (B : Buf) (s e : Nat) (sett : Bool) :
    S2GBACore.ChecksumCalc (some B) s e sett
      = claimFormulaTrunc B s e (if sett then [7] else []) := by
  unfold S2GBACore.ChecksumCalc cppFinalize
  have hsk : (if sett then [0xE / 2] else []) = (if sett then [7] else []) := by
    cases sett <;> rfl
  dsimp only
  rw [hsk, cppFold_wordRange]
  unfold claimFormulaTrunc specByte2
  have e1 : ∀ t : Nat, (t % 256 + 1) % 256 = (t + 1) % 256 := fun t => by omega
  rw [e1]

theorem specByte1_lt (B : Buf) (s e : Nat) (skips : List Nat) :
    specByte1 B s e skips < 256 := Nat.mod_lt _ (by omega)

theorem specByte2_lt (B : Buf) (s e : Nat) (skips : List Nat) :
    specByte2 B s e skips < 256 := Nat.mod_lt _ (by omega)

/-- The truncated and untruncated formulas agree whenever neither
accumulator is zero. -/
theorem trunc_eq_claimFormula (B : Buf) (s e : Nat) (skips : List Nat)
    (h1 : specByte1 B s e skips ≠ 0) (h2 : specByte2 B s e skips ≠ 0) :
    claimFormulaTrunc B s e skips = claimFormula B s e skips := by
  have b1 := specByte1_lt B s e skips
  have b2 := specByte2_lt B s e skips
  unfold claimFormulaTrunc claimFormula
  have e1 : (256 - specByte1 B s e skips) % 256 = 256 - specByte1 B s e skips := by omega
  have e2 : (256 - specByte2 B s e skips) % 256 = 256 - specByte2 B s e skips := by omega
  rw [e1, e2]

/-- The truncated formula always fits in 16 bits. -/
theorem trunc_lt (B : Buf) (s e : Nat) (skips : List Nat) :
    claimFormulaTrunc B s e skips < 65536 := by
  unfold claimFormulaTrunc
  have h1 : (256 - specByte1 B s e skips) % 256 < 256 := Nat.mod_lt _ (by omega)
  have h2 : (256 - specByte2 B s e skips) % 256 < 256 := Nat.mod_lt _ (by omega)
  omega

/-! ## Which bytes a checksum depends on, and write/read lemmas -/

theorem mem_activeWords {w s e : Nat} {skips : List Nat} :
    w ∈ activeWords s e skips ↔ s ≤ w ∧ w < e ∧ w ∉ skips := by
  simp only [activeWords, wordRange, List.mem_filter, List.mem_range'_1, decide_eq_true_eq]
  constructor
  · rintro ⟨⟨h1, h2⟩, h3⟩; exact ⟨h1, by omega, h3⟩
  · rintro ⟨h1, h2, h3⟩; exact ⟨⟨h1, by omega⟩, h3⟩

theorem sumLow_setU8 (B : Buf) (o v : Nat) (ws : List Nat)
    (h : ∀ w ∈ ws, w ≠ o / 2) : sumLow (setU8 B o v) ws = sumLow B ws := by
  unfold sumLow
  congr 1
  apply List.map_congr_left
  intro w hw
  exact getU8_setU8_ne B o v _ (by have := h w hw; omega)

theorem sumHigh_setU8 (B : Buf) (o v : Nat) (ws : List Nat)
    (h : ∀ w ∈ ws, w ≠ o / 2) : sumHigh (setU8 B o v) ws = sumHigh B ws := by
  unfold sumHigh
  congr 1
  apply List.map_congr_left
  intro w hw
  exact getU8_setU8_ne B o v _ (by have := h w hw; omega)

/-- Storing a byte whose word index is not summed leaves the (truncated)
checksum formula unchanged. -/
theorem trunc_setU8 (B : Buf) (o v s e : Nat) (skips : List Nat)
    (h : o / 2 ∉ activeWords s e skips) :
    claimFormulaTrunc (setU8 B o v) s e skips = claimFormulaTrunc B s e skips := by
  have hws : ∀ w ∈ activeWords s e skips, w ≠ o / 2 := fun w hw he => h (he ▸ hw)
  unfold claimFormulaTrunc specByte2 specByte1
  rw [sumLow_setU8 B o v _ hws, sumHigh_setU8 B o v _ hws]

/-- Writing a 16-bit value whose two bytes fall on non-summed words leaves
the (truncated) checksum formula unchanged. -/
theorem trunc_write16 (B : Buf) (o v s e : Nat) (skips : List Nat)
    (h1 : o / 2 ∉ activeWords s e skips) (h2 : (o + 1) / 2 ∉ activeWords s e skips) :
    claimFormulaTrunc (write16 B o v) s e skips = claimFormulaTrunc B s e skips := by
  unfold write16
  rw [trunc_setU8 _ _ _ _ _ _ h2, trunc_setU8 _ _ _ _ _ _ h1]

theorem getU8_write16_ne (B : Buf) (o v i : Nat) (h1 : i ≠ o) (h2 : i ≠ o + 1) :
    getU8 (write16 B o v) i = getU8 B i := by
  unfold write16
  rw [getU8_setU8_ne _ _ _ _ h2, getU8_setU8_ne _ _ _ _ h1]

theorem read16_write16_self (B : Buf) (o v : Nat) (hv : v < 65536) :
    read16 (write16 B o v) o = v := by
  unfold read16 write16
  rw [getU8_setU8_ne _ _ _ _ (by omega), getU8_setU8_self, getU8_setU8_self]
  omega

theorem read16_write16_ne (B : Buf) (o v o' : Nat) (h : o' + 1 < o ∨ o + 1 < o') :
    read16 (write16 B o v) o' = read16 B o' := by
  unfold read16
  rw [getU8_write16_ne _ _ _ _ (by omega) (by omega),
    getU8_write16_ne _ _ _ _ (by omega) (by omega)]

theorem read32_write32_self (B : Buf) (o v : Nat) (hv : v < 4294967296) :
    read32 (write32 B o v) o = v := by
  unfold read32 write32
  rw [getU8_setU8_ne _ _ _ _ (by omega), getU8_setU8_ne _ _ _ _ (by omega),
    getU8_setU8_ne _ _ _ _ (by omega), getU8_setU8_self]
  rw [getU8_setU8_ne _ _ _ _ (by omega), getU8_setU8_ne _ _ _ _ (by omega),
    getU8_setU8_self]
  rw [getU8_setU8_ne _ _ _ _ (by omega), getU8_setU8_self]
  rw [getU8_setU8_self]
  omega

theorem list_any_congr (l : List Nat) (p q : Nat → Bool) (h : ∀ a ∈ l, p a = q a) :
    l.any p = l.any q := by
  induction l with
  | nil => rfl
  | cons a l ih =>
    simp only [List.any_cons, h a (by simp), ih (fun b hb => h b (by simp [hb]))]

end Sim2

namespace S2GBACore

open Sim2

/-! ## GBA write-back: buffer-level lemmas -/

theorem slotCalcB_eq (B : Buf) (slot : Nat) :
    slotCalcB B slot = claimFormulaTrunc B (slot * 2048) (slot * 2048 + 2047) [] := by
  unfold slotCalcB
  rw [gbaCalc_eq_trunc]
  have e1 : slot * 0x1000 / 2 = slot * 2048 := by omega
  have e2 : (slot * 0x1000 + 0xFFE) / 2 = slot * 2048 + 2047 := by omega
  rw [e1, e2]
  norm_num

theorem settingsCalcB_eq (B : Buf) :
    settingsCalcB B = claimFormulaTrunc B 0 12 [7] := by
  unfold settingsCalcB
  rw [gbaCalc_eq_trunc]
  norm_num

theorem slotCalcB_lt (B : Buf) (slot : Nat) : slotCalcB B slot < 65536 := by
  rw [slotCalcB_eq]; exact trunc_lt _ _ _ _

theorem settingsCalcB_lt (B : Buf) : settingsCalcB B < 65536 := by
  rw [settingsCalcB_eq]; exact trunc_lt _ _ _ _

theorem slotCalcB_write_chk (B : Buf) (slot s' v : Nat) :
    slotCalcB (write16 B (s' * 0x1000 + 0xFFE) v) slot = slotCalcB B slot := by
  rw [slotCalcB_eq, slotCalcB_eq]
  apply trunc_write16
  · intro hmem; rw [mem_activeWords] at hmem; obtain ⟨h1, h2, -⟩ := hmem; omega
  · intro hmem; rw [mem_activeWords] at hmem; obtain ⟨h1, h2, -⟩ := hmem; omega

theorem slotCalcB_write_E (B : Buf) (slot v : Nat) (h : 1 ≤ slot) :
    slotCalcB (write16 B 0xE v) slot = slotCalcB B slot := by
  rw [slotCalcB_eq, slotCalcB_eq]
  apply trunc_write16
  · intro hmem; rw [mem_activeWords] at hmem; obtain ⟨h1, h2, -⟩ := hmem; omega
  · intro hmem; rw [mem_activeWords] at hmem; obtain ⟨h1, h2, -⟩ := hmem; omega

theorem settingsCalcB_write_chk (B : Buf) (s' v : Nat) :
    settingsCalcB (write16 B (s' * 0x1000 + 0xFFE) v) = settingsCalcB B := by
  rw [settingsCalcB_eq, settingsCalcB_eq]
  apply trunc_write16
  · intro hmem; rw [mem_activeWords] at hmem; obtain ⟨h1, h2, -⟩ := hmem; omega
  · intro hmem; rw [mem_activeWords] at hmem; obtain ⟨h1, h2, -⟩ := hmem; omega

theorem settingsCalcB_write_E (B : Buf) (v : Nat) :
    settingsCalcB (write16 B 0xE v) = settingsCalcB B := by
  rw [settingsCalcB_eq, settingsCalcB_eq]
  apply trunc_write16
  · intro hmem; rw [mem_activeWords] at hmem; exact hmem.2.2 (by norm_num)
  · intro hmem; rw [mem_activeWords] at hmem; exact hmem.2.2 (by norm_num)

theorem fixB_post (B : Buf) (slot : Nat) : gbaStoredEq (fixB slot B) slot := by
  unfold gbaStoredEq fixB
  by_cases h : slotCalcB B slot = read16 B (slot * 0x1000 + 0xFFE)
  · rw [if_pos h]; exact h.symm
  · rw [if_neg h, read16_write16_self _ _ _ (slotCalcB_lt B slot), slotCalcB_write_chk]

theorem updB_post (B : Buf) : gbaSettingsEq (updSettingsB B) := by
  unfold gbaSettingsEq updSettingsB
  by_cases h : settingsCalcB B = read16 B 0xE
  · rw [if_pos h]; exact h.symm
  · rw [if_neg h, read16_write16_self _ _ _ (settingsCalcB_lt B), settingsCalcB_write_E]

theorem fixB_noop (B : Buf) (slot : Nat) (h : gbaStoredEq B slot) : fixB slot B = B := by
  unfold fixB; rw [if_pos h.symm]

theorem updB_noop (B : Buf) (h : gbaSettingsEq B) : updSettingsB B = B := by
  unfold updSettingsB; rw [if_pos h.symm]

theorem slotCalcB_fixB (B : Buf) (slot s' : Nat) :
    slotCalcB (fixB s' B) slot = slotCalcB B slot := by
  unfold fixB; split
  · rfl
  · exact slotCalcB_write_chk B slot s' _

theorem slotCalcB_updB (B : Buf) (slot : Nat) (h : 1 ≤ slot) :
    slotCalcB (updSettingsB B) slot = slotCalcB B slot := by
  unfold updSettingsB; split
  · rfl
  · exact slotCalcB_write_E B slot _ h

theorem settingsCalcB_fixB (B : Buf) (s' : Nat) :
    settingsCalcB (fixB s' B) = settingsCalcB B := by
  unfold fixB; split
  · rfl
  · exact settingsCalcB_write_chk B s' _

theorem read16_chk_fixB (B : Buf) (slot s' : Nat) (hne : s' ≠ slot) :
    read16 (fixB s' B) (slot * 0x1000 + 0xFFE) = read16 B (slot * 0x1000 + 0xFFE) := by
  unfold fixB; split
  · rfl
  · exact read16_write16_ne _ _ _ _ (by omega)

theorem read16_chk_updB (B : Buf) (slot : Nat) (h : 1 ≤ slot) :
    read16 (updSettingsB B) (slot * 0x1000 + 0xFFE) = read16 B (slot * 0x1000 + 0xFFE) := by
  unfold updSettingsB; split
  · rfl
  · exact read16_write16_ne _ _ _ _ (by omega)

theorem fixB_pres (B : Buf) (slot s' : Nat) (h : gbaStoredEq B slot) :
    gbaStoredEq (fixB s' B) slot := by
  by_cases he : s' = slot
  · subst he; rw [fixB_noop B s' h]; exact h
  · unfold gbaStoredEq at h ⊢
    rw [read16_chk_fixB B slot s' he, slotCalcB_fixB]; exact h

theorem updB_pres (B : Buf) (slot : Nat) (h1 : 1 ≤ slot) (h : gbaStoredEq B slot) :
    gbaStoredEq (updSettingsB B) slot := by
  unfold gbaStoredEq at h ⊢
  rw [read16_chk_updB B slot h1, slotCalcB_updB B slot h1]; exact h

theorem getU8_fixB (B : Buf) (slot o : Nat)
    (h1 : o ≠ slot * 0x1000 + 0xFFE) (h2 : o ≠ slot * 0x1000 + 0xFFF) :
    getU8 (fixB slot B) o = getU8 B o := by
  unfold fixB; split
  · rfl
  · exact getU8_write16_ne _ _ _ _ h1 (by omega)

theorem getU8_updB (B : Buf) (o : Nat) (h1 : o ≠ 0xE) (h2 : o ≠ 0xF) :
    getU8 (updSettingsB B) o = getU8 B o := by
  unfold updSettingsB; split
  · rfl
  · exact getU8_write16_ne _ _ _ _ h1 (by omega)

theorem slotExistB_fixB (B : Buf) (s' t : Nat) :
    slotExistB (fixB s' B) t = slotExistB B t := by
  unfold slotExistB; split
  · rfl
  · apply list_any_congr
    intro i hi
    rw [List.mem_range] at hi
    rw [getU8_fixB B s' _ (by omega) (by omega)]

theorem slotExistB_updB (B : Buf) (t : Nat) :
    slotExistB (updSettingsB B) t = slotExistB B t := by
  unfold slotExistB
  split
  · rfl
  · rename_i hcond
    simp only [Bool.or_eq_true, decide_eq_true_eq, not_or] at hcond
    obtain ⟨hc1, hc2⟩ := hcond
    apply list_any_congr
    intro i hi
    rw [List.mem_range] at hi
    rw [getU8_updB B _ (by omega) (by omega)]

theorem finStepB_pres (B : Buf) (slot s' : Nat) (h : gbaStoredEq B slot) :
    gbaStoredEq (finStepB s' B) slot := by
  unfold finStepB; split
  · exact fixB_pres B slot s' h
  · exact h

theorem finStepB_post (B : Buf) (slot : Nat) (hex : slotExistB B slot = true) :
    gbaStoredEq (finStepB slot B) slot := by
  unfold finStepB; rw [if_pos hex]; exact fixB_post B slot

theorem slotExistB_finStepB (B : Buf) (s' t : Nat) :
    slotExistB (finStepB s' B) t = slotExistB B t := by
  unfold finStepB; split
  · exact slotExistB_fixB B s' t
  · rfl

/-- After the buffer-level `Finish`, every slot that existed carries a
checksum field equal to the engine's recomputation. -/
theorem finishB_storedEq (B : Buf) (slot : Nat) (h1 : 1 ≤ slot) (h4 : slot ≤ 4)
    (hex : slotExistB B slot = true) : gbaStoredEq (finishB B) slot := by
  unfold finishB
  interval_cases slot
  · apply updB_pres _ _ (by omega)
    apply finStepB_pres; apply finStepB_pres; apply finStepB_pres
    exact finStepB_post B 1 hex
  · apply updB_pres _ _ (by omega)
    apply finStepB_pres; apply finStepB_pres
    apply finStepB_post
    rw [slotExistB_finStepB]; exact hex
  · apply updB_pres _ _ (by omega)
    apply finStepB_pres
    apply finStepB_post
    rw [slotExistB_finStepB, slotExistB_finStepB]; exact hex
  · apply updB_pres _ _ (by omega)
    apply finStepB_post
    rw [slotExistB_finStepB, slotExistB_finStepB, slotExistB_finStepB]; exact hex

theorem finishB_settingsEq (B : Buf) : gbaSettingsEq (finishB B) := updB_post _

theorem slotExistB_finishB (B : Buf) (t : Nat) :
    slotExistB (finishB B) t = slotExistB B t := by
  unfold finishB
  rw [slotExistB_updB, slotExistB_finStepB, slotExistB_finStepB, slotExistB_finStepB,
    slotExistB_finStepB]

theorem finStepB_noop_of_finishB (B : Buf) (slot : Nat) (h1 : 1 ≤ slot) (h4 : slot ≤ 4) :
    finStepB slot (finishB B) = finishB B := by
  unfold finStepB
  by_cases hex : slotExistB (finishB B) slot = true
  · rw [if_pos hex]
    apply fixB_noop
    apply finishB_storedEq B slot h1 h4
    rw [slotExistB_finishB] at hex; exact hex
  · rw [if_neg hex]

/-- The buffer-level `Finish` is idempotent. -/
theorem finishB_idem (B : Buf) : finishB (finishB B) = finishB B := by
  have hdef : finishB (finishB B)
      = updSettingsB (finStepB 4 (finStepB 3 (finStepB 2 (finStepB 1 (finishB B))))) := rfl
  rw [hdef, finStepB_noop_of_finishB B 1 (by omega) (by omega),
    finStepB_noop_of_finishB B 2 (by omega) (by omega),
    finStepB_noop_of_finishB B 3 (by omega) (by omega),
    finStepB_noop_of_finishB B 4 (by omega) (by omega),
    updB_noop _ (finishB_settingsEq B)]

end S2GBACore

namespace S2NDSCore

open Sim2

/-! ## NDS write-back: buffer-level lemmas -/

theorem ndsSlotCalcB_eq (B : Buf) (r : Nat) :
    slotCalcB B r
      = claimFormulaTrunc B (r * 2048 + 8) (r * 2048 + 2048) [r * 2048 + 9, r * 2048 + 20] := by
  unfold slotCalcB
  rw [ndsCalc_eq_trunc]
  have e1 : (r * 0x1000 + 0x10) / 2 = r * 2048 + 8 := by omega
  have e2 : (r * 0x1000 + 0x1000) / 2 = r * 2048 + 2048 := by omega
  have e3 : (r * 0x1000 + 0x12) / 2 = r * 2048 + 9 := by omega
  have e4 : (r * 0x1000 + 0x28) / 2 = r * 2048 + 20 := by omega
  rw [e1, e2, e3, e4]

theorem ndsSlotCalcB_lt (B : Buf) (r : Nat) : slotCalcB B r < 65536 := by
  rw [ndsSlotCalcB_eq]; exact trunc_lt _ _ _ _

theorem ndsSlotCalcB_write_chk (B : Buf) (r r' v : Nat) :
    slotCalcB (write16 B (r' * 0x1000 + 0x28) v) r = slotCalcB B r := by
  rw [ndsSlotCalcB_eq, ndsSlotCalcB_eq]
  apply trunc_write16 <;>
  · intro hmem
    rw [mem_activeWords] at hmem
    obtain ⟨h1, h2, h3⟩ := hmem
    simp only [List.mem_cons, List.mem_singleton, List.not_mem_nil, not_or] at h3
    omega

theorem ndsFixB_post (B : Buf) (r : Nat) : ndsStoredEq (fixB r B) r := by
  unfold ndsStoredEq fixB
  by_cases h : slotCalcB B r = read16 B (r * 0x1000 + 0x28)
  · rw [if_pos h]; exact h.symm
  · rw [if_neg h, read16_write16_self _ _ _ (ndsSlotCalcB_lt B r), ndsSlotCalcB_write_chk]

theorem ndsFixB_noop (B : Buf) (r : Nat) (h : ndsStoredEq B r) : fixB r B = B := by
  unfold fixB; rw [if_pos h.symm]

theorem ndsSlotCalcB_fixB (B : Buf) (r r' : Nat) :
    slotCalcB (fixB r' B) r = slotCalcB B r := by
  unfold fixB; split
  · rfl
  · exact ndsSlotCalcB_write_chk B r r' _

theorem ndsRead16_chk_fixB (B : Buf) (r r' : Nat) (hne : r' ≠ r) :
    read16 (fixB r' B) (r * 0x1000 + 0x28) = read16 B (r * 0x1000 + 0x28) := by
  unfold fixB; split
  · rfl
  · exact read16_write16_ne _ _ _ _ (by omega)

theorem ndsFixB_pres (B : Buf) (r r' : Nat) (h : ndsStoredEq B r) :
    ndsStoredEq (fixB r' B) r := by
  by_cases he : r' = r
  · subst he; rw [ndsFixB_noop B r' h]; exact h
  · unfold ndsStoredEq at h ⊢
    rw [ndsRead16_chk_fixB B r r' he, ndsSlotCalcB_fixB]; exact h

theorem ndsFinStepB_pres (sl : Nat → Int) (slot' : Nat) (B : Buf) (r : Nat)
    (h : ndsStoredEq B r) : ndsStoredEq (finStepB sl slot' B) r := by
  unfold finStepB; split
  · exact h
  · split
    · exact h
    · exact ndsFixB_pres B r _ h

theorem ndsFinStepB_post (sl : Nat → Int) (slot : Nat) (B : Buf)
    (h2 : ¬ 2 < slot) (hne : sl slot ≠ -1) :
    ndsStoredEq (finStepB sl slot B) (toRegion (sl slot)) := by
  unfold finStepB
  rw [if_neg h2, if_neg hne]
  exact ndsFixB_post B _

/-- After the buffer-level NDS `Finish`, every resolved logical slot's
region carries a checksum field equal to the engine's recomputation. -/
theorem ndsFinishB_storedEq (sl : Nat → Int) (B : Buf) (slot : Nat)
    (hslot : slot ≤ 2) (hne : sl slot ≠ -1) :
    ndsStoredEq (finishB sl B) (toRegion (sl slot)) := by
  unfold finishB
  interval_cases slot
  · apply ndsFinStepB_pres; apply ndsFinStepB_pres
    exact ndsFinStepB_post sl 0 B (by omega) hne
  · apply ndsFinStepB_pres
    exact ndsFinStepB_post sl 1 _ (by omega) hne
  · exact ndsFinStepB_post sl 2 _ (by omega) hne

theorem ndsFinStepB_noop_of_finishB (sl : Nat → Int) (B : Buf) (i : Nat) (hi : i ≤ 2) :
    finStepB sl i (finishB sl B) = finishB sl B := by
  unfold finStepB
  rw [if_neg (by omega)]
  by_cases hne : sl i = -1
  · rw [if_pos hne]
  · rw [if_neg hne]
    exact ndsFixB_noop _ _ (ndsFinishB_storedEq sl B i hi hne)

/-- The buffer-level NDS `Finish` is idempotent. -/
theorem ndsFinishB_idem (sl : Nat → Int) (B : Buf) :
    finishB sl (finishB sl B) = finishB sl B := by
  have hdef : finishB sl (finishB sl B)
      = finStepB sl 2 (finStepB sl 1 (finStepB sl 0 (finishB sl B))) := rfl
  rw [hdef, ndsFinStepB_noop_of_finishB sl B 0 (by omega),
    ndsFinStepB_noop_of_finishB sl B 1 (by omega),
    ndsFinStepB_noop_of_finishB sl B 2 (by omega)]

end S2NDSCore

namespace S2GBACore

open Sim2

/-! ## GBA write-back: state-level links -/

theorem FixChecksum_shape (B : Buf) (sz : Nat) (cm : Bool) (slot : Nat) :
    ∃ cm', FixChecksum slot (⟨some B, sz, true, cm⟩ : SAV)
      = ⟨some (fixB slot B), sz, true, cm'⟩ := by
  have hchk : ChecksumCalc (some B) (slot * 0x1000 / 2) ((slot * 0x1000 + 0xFFE) / 2) false
      = slotCalcB B slot := rfl
  have hrd : Read16 (⟨some B, sz, true, cm⟩ : SAV) (slot * 0x1000 + 0xFFE)
      = read16 B (slot * 0x1000 + 0xFFE) := rfl
  by_cases h : slotCalcB B slot = read16 B (slot * 0x1000 + 0xFFE)
  · refine ⟨cm, ?_⟩
    unfold FixChecksum
    rw [show (⟨some B, sz, true, cm⟩ : SAV).data = some B from rfl, hchk, hrd, if_pos h]
    unfold fixB
    rw [if_pos h]
  · refine ⟨true, ?_⟩
    unfold FixChecksum
    rw [show (⟨some B, sz, true, cm⟩ : SAV).data = some B from rfl, hchk, hrd, if_neg h]
    unfold Write16 fixB
    rw [if_neg h]

theorem UpdateChecksum_shape (B : Buf) (sz : Nat) (cm : Bool) :
    ∃ cm', UpdateChecksum (⟨some B, sz, true, cm⟩ : SAV)
      = ⟨some (updSettingsB B), sz, true, cm'⟩ := by
  have hchk : ChecksumCalc (some B) 0 (0x18 / 2) true = settingsCalcB B := rfl
  have hrd : Read16 (⟨some B, sz, true, cm⟩ : SAV) 0xE = read16 B 0xE := rfl
  by_cases h : settingsCalcB B = read16 B 0xE
  · refine ⟨cm, ?_⟩
    unfold UpdateChecksum
    rw [show (⟨some B, sz, true, cm⟩ : SAV).data = some B from rfl, hchk, hrd, if_pos h]
    unfold updSettingsB
    rw [if_pos h]
  · refine ⟨true, ?_⟩
    unfold UpdateChecksum
    rw [show (⟨some B, sz, true, cm⟩ : SAV).data = some B from rfl, hchk, hrd, if_neg h]
    unfold Write16 updSettingsB
    rw [if_neg h]

theorem FinishStep_shape (B : Buf) (sz : Nat) (cm : Bool) (slot : Nat) :
    ∃ cm', FinishStep slot (⟨some B, sz, true, cm⟩ : SAV)
      = ⟨some (finStepB slot B), sz, true, cm'⟩ := by
  have hse : SlotExist (⟨some B, sz, true, cm⟩ : SAV) slot = slotExistB B slot := rfl
  unfold FinishStep finStepB
  rw [hse]
  by_cases hex : slotExistB B slot = true
  · rw [if_pos hex, if_pos hex]
    exact FixChecksum_shape B sz cm slot
  · rw [if_neg hex, if_neg hex]
    exact ⟨cm, rfl⟩

/-- A valid, loaded GBA save finishes to the buffer-level `finishB` result,
preserving validity, size and the buffer's presence. -/
theorem Finish_shape (s : SAV) (B : Buf) (hd : s.data = some B) (hv : s.savValid = true) :
    ∃ cm', Finish s = ⟨some (finishB B), s.size, true, cm'⟩ := by
  obtain ⟨d, sz, v, cm⟩ := s
  simp only at hd hv
  subst hd; subst hv
  obtain ⟨c1, e1⟩ := FinishStep_shape B sz cm 1
  obtain ⟨c2, e2⟩ := FinishStep_shape (finStepB 1 B) sz c1 2
  obtain ⟨c3, e3⟩ := FinishStep_shape (finStepB 2 (finStepB 1 B)) sz c2 3
  obtain ⟨c4, e4⟩ := FinishStep_shape (finStepB 3 (finStepB 2 (finStepB 1 B))) sz c3 4
  obtain ⟨c5, e5⟩ :=
    UpdateChecksum_shape (finStepB 4 (finStepB 3 (finStepB 2 (finStepB 1 B)))) sz c4
  refine ⟨c5, ?_⟩
  unfold Finish
  rw [show (⟨some B, sz, true, cm⟩ : SAV).savValid = true from rfl]
  rw [if_pos rfl, e1, e2, e3, e4, e5]
  rfl

/-- An invalid save is left untouched by `Finish`. -/
theorem Finish_invalid (s : SAV) (hv : s.savValid = false) : Finish s = s := by
  unfold Finish
  rw [hv]
  rfl

/-- A save without a buffer is left untouched by `Finish`. -/
theorem Finish_no_data (s : SAV) (hd : s.data = none) : Finish s = s := by
  obtain ⟨d, sz, v, cm⟩ := s
  simp only at hd
  subst hd
  cases v
  · exact Finish_invalid _ rfl
  · rfl

end S2GBACore

namespace S2NDSCore

open Sim2

/-! ## NDS write-back: state-level links -/

theorem NDSFixChecksum_shape (B : Buf) (sz : Nat) (cm : Bool) (rg : Nat) (sl : Nat → Int)
    (r : Nat) :
    ∃ cm', FixChecksum r (⟨some B, sz, true, cm, rg, sl⟩ : SAV)
      = ⟨some (fixB r B), sz, true, cm', rg, sl⟩ := by
  have hchk : ChecksumCalc (some B) ((r * 0x1000 + 0x10) / 2) ((r * 0x1000 + 0x1000) / 2)
      [(r * 0x1000 + 0x12) / 2, (r * 0x1000 + 0x28) / 2] = slotCalcB B r := rfl
  have hrd : Read16 (⟨some B, sz, true, cm, rg, sl⟩ : SAV) (r * 0x1000 + 0x28)
      = read16 B (r * 0x1000 + 0x28) := rfl
  by_cases h : slotCalcB B r = read16 B (r * 0x1000 + 0x28)
  · refine ⟨cm, ?_⟩
    unfold FixChecksum
    rw [show (⟨some B, sz, true, cm, rg, sl⟩ : SAV).data = some B from rfl, hchk, hrd, if_pos h]
    unfold fixB
    rw [if_pos h]
  · refine ⟨true, ?_⟩
    unfold FixChecksum
    rw [show (⟨some B, sz, true, cm, rg, sl⟩ : SAV).data = some B from rfl, hchk, hrd, if_neg h]
    unfold Write16 fixB
    rw [if_neg h]

theorem NDSFinishStep_shape (B : Buf) (sz : Nat) (cm : Bool) (rg : Nat) (sl : Nat → Int)
    (slot : Nat) :
    ∃ cm', FinishStep slot (⟨some B, sz, true, cm, rg, sl⟩ : SAV)
      = ⟨some (finStepB sl slot B), sz, true, cm', rg, sl⟩ := by
  have hse : SlotExist (⟨some B, sz, true, cm, rg, sl⟩ : SAV) slot
      = (if 2 < slot then false else decide (sl slot ≠ -1)) := by
    unfold SlotExist
    simp
  unfold FinishStep finStepB
  rw [hse]
  by_cases h2 : 2 < slot
  · rw [if_pos h2, if_pos h2]
    exact ⟨cm, by simp⟩
  · rw [if_neg h2, if_neg h2]
    by_cases hne : sl slot = -1
    · rw [if_pos hne]
      simp only [hne, decide_eq_true_eq]
      exact ⟨cm, by simp⟩
    · rw [if_neg hne]
      simp only [decide_eq_true_eq]
      rw [if_pos hne]
      exact NDSFixChecksum_shape B sz cm rg sl (toRegion (sl slot))

/-- A valid, loaded NDS save finishes to the buffer-level `finishB` result,
preserving validity, size, region and the resolved slot table. -/
theorem NDSFinish_shape (s : SAV) (B : Buf) (hd : s.data = some B) (hv : s.savValid = true) :
    ∃ cm', Finish s = ⟨some (finishB s.slots B), s.size, true, cm', s.region, s.slots⟩ := by
  obtain ⟨d, sz, v, cm, rg, sl⟩ := s
  simp only at hd hv ⊢
  subst hd; subst hv
  obtain ⟨c1, e1⟩ := NDSFinishStep_shape B sz cm rg sl 0
  obtain ⟨c2, e2⟩ := NDSFinishStep_shape (finStepB sl 0 B) sz c1 rg sl 1
  obtain ⟨c3, e3⟩ := NDSFinishStep_shape (finStepB sl 1 (finStepB sl 0 B)) sz c2 rg sl 2
  refine ⟨c3, ?_⟩
  unfold Finish
  rw [show (⟨some B, sz, true, cm, rg, sl⟩ : SAV).savValid = true from rfl]
  rw [if_pos rfl, e1, e2, e3]
  rfl

theorem NDSFinish_invalid (s : SAV) (hv : s.savValid = false) : Finish s = s := by
  unfold Finish
  rw [hv]
  rfl

theorem NDSFinish_no_data (s : SAV) (hd : s.data = none) : Finish s = s := by
  obtain ⟨d, sz, v, cm, rg, sl⟩ := s
  simp only at hd
  subst hd
  cases v
  · exact NDSFinish_invalid _ rfl
  · unfold Finish FinishStep FixChecksum SlotExist Read16 Write16 ChecksumCalc
    simp

end S2NDSCore


namespace Sim2

/-! ## FetchSlot: characterization of the selection loop -/

theorem maxCandCount_nil (B : Buf) (a r : Nat) : maxCandCount B a r [] = 0 := rfl

theorem maxCandCount_cons_pos (B : Buf) (a r s : Nat) (L : List Nat)
    (hc : S2NDSCore.slotCandidate B a r s = true) :
    maxCandCount B a r (s :: L) = max (S2NDSCore.savCount B s) (maxCandCount B a r L) := by
  simp [maxCandCount, List.filter_cons, hc]

theorem maxCandCount_cons_neg (B : Buf) (a r s : Nat) (L : List Nat)
    (hc : ¬ S2NDSCore.slotCandidate B a r s = true) :
    maxCandCount B a r (s :: L) = maxCandCount B a r L := by
  simp [maxCandCount, List.filter_cons, hc]

theorem firstMaxCand_cons_neg (B : Buf) (a r s : Nat) (L : List Nat) (m : Nat)
    (hp : ¬ (S2NDSCore.slotCandidate B a r s && decide (S2NDSCore.savCount B s = m)) = true) :
    firstMaxCand B a r (s :: L) m = firstMaxCand B a r L m := by
  unfold firstMaxCand
  exact List.find?_cons_of_neg _ hp

theorem firstMaxCand_cons_pos (B : Buf) (a r s : Nat) (L : List Nat) (m : Nat)
    (hp : (S2NDSCore.slotCandidate B a r s && decide (S2NDSCore.savCount B s = m)) = true) :
    firstMaxCand B a r (s :: L) m = some s := by
  unfold firstMaxCand
  exact List.find?_cons_of_pos _ hp

theorem foldr_max_mem (l : List Nat) (h : 0 < l.foldr max 0) : l.foldr max 0 ∈ l := by
  induction l with
  | nil => simp at h
  | cons a l ih =>
    simp only [List.foldr_cons]
    by_cases hle : l.foldr max 0 ≤ a
    · rw [Nat.max_eq_left hle]; exact List.mem_cons_self a l
    · rw [Nat.max_eq_right (by omega)]
      refine List.mem_cons_of_mem a (ih ?_)
      simp only [List.foldr_cons] at h
      omega

/-- When some candidate of `L` has a positive counter, a scan-order-first
candidate achieving the maximum exists. -/
theorem firstMaxCand_isSome (B : Buf) (a r : Nat) (L : List Nat)
    (h : 0 < maxCandCount B a r L) :
    ∃ x, firstMaxCand B a r L (maxCandCount B a r L) = some x := by
  have hmem := foldr_max_mem _ h
  rw [List.mem_map] at hmem
  obtain ⟨x, hxf, hxc⟩ := hmem
  rw [List.mem_filter] at hxf
  have hsome : (firstMaxCand B a r L (maxCandCount B a r L)).isSome := by
    rw [firstMaxCand, List.find?_isSome]
    exact ⟨x, hxf.1, by simp [hxf.2, hxc, maxCandCount]⟩
  exact Option.isSome_iff_exists.mp hsome

/-- The selection loop of `FetchSlot` computes the running maximum of the
candidate save counters and keeps the scan-order-first candidate whose
counter strictly exceeds everything seen before: from accumulator `(h, ls)`
it returns the first candidate achieving the overall maximum when some
candidate exceeds `h`, and `ls` otherwise. -/
theorem fetchFold_spec (B : Buf) (a r : Nat) :
    ∀ (L : List Nat) (h : Nat) (ls : Int),
    S2NDSCore.fetchFold B a r L (h, ls)
      = (max h (maxCandCount B a r L),
         if h < maxCandCount B a r L
         then ((firstMaxCand B a r L (maxCandCount B a r L)).map (fun s => (s : Int))).getD ls
         else ls) := by
  intro L
  induction L with
  | nil =>
    intro h ls
    simp [S2NDSCore.fetchFold, maxCandCount_nil]
  | cons s L ih =>
    intro h ls
    have hstep : S2NDSCore.fetchFold B a r (s :: L) (h, ls)
        = S2NDSCore.fetchFold B a r L
            (if S2NDSCore.slotCandidate B a r s && decide (h < S2NDSCore.savCount B s)
             then (S2NDSCore.savCount B s, (s : Int)) else (h, ls)) := rfl
    by_cases hc : S2NDSCore.slotCandidate B a r s = true
    · by_cases hlt : h < S2NDSCore.savCount B s
      · rw [hstep, if_pos (by simp [hc, hlt]), ih, maxCandCount_cons_pos B a r s L hc]
        by_cases hv : S2NDSCore.savCount B s < maxCandCount B a r L
        · have hmax : max (S2NDSCore.savCount B s) (maxCandCount B a r L)
              = maxCandCount B a r L := Nat.max_eq_right (by omega)
          rw [hmax]
          obtain ⟨x, hx⟩ := firstMaxCand_isSome B a r L (by omega)
          have hfind : firstMaxCand B a r (s :: L) (maxCandCount B a r L)
              = firstMaxCand B a r L (maxCandCount B a r L) :=
            firstMaxCand_cons_neg B a r s L _ (by simp [hc]; omega)
          rw [hfind, hx, if_pos hv, if_pos (by omega)]
          have hmm : max h (maxCandCount B a r L) = maxCandCount B a r L :=
            Nat.max_eq_right (by omega)
          rw [hmm]
          simp
        · have hmax : max (S2NDSCore.savCount B s) (maxCandCount B a r L)
              = S2NDSCore.savCount B s := Nat.max_eq_left (by omega)
          rw [hmax]
          have hfind : firstMaxCand B a r (s :: L) (S2NDSCore.savCount B s) = some s :=
            firstMaxCand_cons_pos B a r s L _ (by simp [hc])
          rw [hfind, if_neg hv, if_pos (by omega)]
          have hmm : max h (S2NDSCore.savCount B s) = S2NDSCore.savCount B s :=
            Nat.max_eq_right (by omega)
          rw [hmm]
          rfl
      · rw [hstep, if_neg (by simp [hc, hlt]), ih, maxCandCount_cons_pos B a r s L hc]
        simp only [Prod.mk.injEq]
        constructor
        · rw [← Nat.max_assoc, Nat.max_eq_left (show S2NDSCore.savCount B s ≤ h by omega)]
        · by_cases hh : h < maxCandCount B a r L
          · rw [if_pos hh, if_pos (lt_of_lt_of_le hh (Nat.le_max_right _ _))]
            have hmax : max (S2NDSCore.savCount B s) (maxCandCount B a r L)
                = maxCandCount B a r L := Nat.max_eq_right (by omega)
            rw [hmax, firstMaxCand_cons_neg B a r s L _ (by simp [hc]; omega)]
          · have hle : max (S2NDSCore.savCount B s) (maxCandCount B a r L) ≤ h :=
              Nat.max_le.mpr ⟨by omega, by omega⟩
            rw [if_neg hh, if_neg (by omega)]
    · rw [hstep, if_neg (by simp [hc]), ih, maxCandCount_cons_neg B a r s L hc]
      have hfind : ∀ m, firstMaxCand B a r (s :: L) m = firstMaxCand B a r L m :=
        fun m => firstMaxCand_cons_neg B a r s L m (by simp [hc])
      rw [hfind]

/-- Closed form of `FetchSlot`: the first claimant achieving the maximal
counter when that maximum is positive, else the sentinel `-1`. -/
theorem FetchSlot_spec (B : Buf) (a r : Nat) :
    S2NDSCore.FetchSlot B a r
      = if 0 < maxClaimCount B a r
        then ((firstMaxClaimant B a r).map (fun s => (s : Int))).getD (-1)
        else -1 := by
  unfold S2NDSCore.FetchSlot maxClaimCount firstMaxClaimant
  rw [fetchFold_spec]
  rfl

end Sim2

namespace Sim2

/-! ## FetchSlot corollaries -/

/-- When some claimant has a positive counter, `FetchSlot` returns the
scan-order-first claimant achieving the maximum. -/
theorem FetchSlot_of_max_pos (B : Buf) (a r : Nat) (h : 0 < maxClaimCount B a r) :
    ∃ s, firstMaxClaimant B a r = some s ∧ S2NDSCore.FetchSlot B a r = (s : Int)
      ∧ s ∈ claimantsList B a r ∧ S2NDSCore.savCount B s = maxClaimCount B a r := by
  obtain ⟨x, hx⟩ := firstMaxCand_isSome B a r [0, 1, 2, 3, 4] h
  have hx' : firstMaxClaimant B a r = some x := hx
  have hx2 : List.find? (fun s => S2NDSCore.slotCandidate B a r s
      && decide (S2NDSCore.savCount B s = maxClaimCount B a r)) [0, 1, 2, 3, 4] = some x := hx
  have hp := List.find?_some hx2
  have hmem : x ∈ [0, 1, 2, 3, 4] := List.mem_of_find?_eq_some hx2
  rw [Bool.and_eq_true, decide_eq_true_eq] at hp
  refine ⟨x, hx', ?_, ?_, hp.2⟩
  · rw [FetchSlot_spec, if_pos h, hx']
    rfl
  · exact List.mem_filter.mpr ⟨hmem, hp.1⟩

/-- `FetchSlot` is the sentinel `-1` exactly when no claimant has a
positive save counter. -/
theorem FetchSlot_eq_neg_one_iff (B : Buf) (a r : Nat) :
    S2NDSCore.FetchSlot B a r = -1 ↔ maxClaimCount B a r = 0 := by
  constructor
  · intro hf
    by_contra hne
    obtain ⟨s, -, hs, -, -⟩ := FetchSlot_of_max_pos B a r (by omega)
    rw [hs] at hf
    omega
  · intro h0
    rw [FetchSlot_spec, if_neg (by omega)]

/-! ## NDS slot header checksum lemmas -/

theorem range'_eq_wordRange (s : Nat) :
    List.range' s 10 = wordRange s (s + 10) := by
  unfold wordRange
  rw [show s + 10 - s = 10 by omega]

/-- With a zero marker byte, the header routine coincides with the generic
JS checksum over the same word range and skip. -/
theorem headerCalc_marker_zero (B : Buf) (slot : Nat)
    (h : getU8 B (slot * 0x1000 + 0x13) = 0) :
    Checksum_CalcNDSSlotHeader B slot
      = Checksum_Calc B (slot * 0x1000 / 2) (slot * 0x1000 / 2 + 10)
          [slot * 0x1000 / 2 + 7] := by
  unfold Checksum_CalcNDSSlotHeader Checksum_Calc jsFinalize jsHeaderWrap
  rw [h, ← range'_eq_wordRange]
  simp

/-- With a nonzero marker byte, the header routine computes the formula
with no final increment of Byte2. -/
theorem headerCalc_marker_nonzero (B : Buf) (slot : Nat)
    (h : getU8 B (slot * 0x1000 + 0x13) ≠ 0) :
    Checksum_CalcNDSSlotHeader B slot
      = claimFormulaNoInc B (slot * 0x1000 / 2) (slot * 0x1000 / 2 + 10)
          [slot * 0x1000 / 2 + 7] := by
  unfold Checksum_CalcNDSSlotHeader jsHeaderWrap
  rw [if_neg h, range'_eq_wordRange,
    jsFold_eq_cppFold B _ _ (0, 0) (by omega), cppFold_wordRange]
  have hlt : (sumHigh B (activeWords (slot * 0x1000 / 2) (slot * 0x1000 / 2 + 10)
      [slot * 0x1000 / 2 + 7])
      + sumLow B (activeWords (slot * 0x1000 / 2) (slot * 0x1000 / 2 + 10)
          [slot * 0x1000 / 2 + 7]) / 256) % 256 < 256 := Nat.mod_lt _ (by omega)
  rw [if_neg (by omega)]
  rfl

end Sim2

namespace Sim2

/-!
## Claim theorems
-/

/-- C1 (corrected): the JS `Checksum_Calc` returns exactly
`256 * (256 - Byte2) + (256 - Byte1)` with `Byte1` the mod-256 low-byte sum
of the non-skipped words and `Byte2` the mod-256 high-byte sum plus one per
carry plus a wrapping final increment; the C++ cores return the same
formula with each negated accumulator additionally reduced mod 256 (the
`(uint8_t)-` cast), which coincides with the claim's formula exactly when
neither accumulator is zero. -/
theorem claim_C1_amended : ∀ (B : Buf) (s e : Nat) (skips : List Nat) (sett : Bool),
    Checksum_Calc B s e skips = claimFormula B s e skips
    ∧ S2NDSCore.ChecksumCalc (some B) s e skips = claimFormulaTrunc B s e skips
    ∧ S2GBACore.ChecksumCalc (some B) s e sett
        = claimFormulaTrunc B s e (if sett then [7] else [])
    ∧ (specByte1 B s e skips ≠ 0 → specByte2 B s e skips ≠ 0 →
        claimFormulaTrunc B s e skips = claimFormula B s e skips) :=
  fun B s e skips sett =>
    ⟨jsCalc_eq_claimFormula B s e skips, ndsCalc_eq_trunc B s e skips,
     gbaCalc_eq_trunc B s e sett, trunc_eq_claimFormula B s e skips⟩

/-- C1 counterexample: on the all-zero buffer over one word with no skips,
the claimed formula evaluates to 65536 while the C++ engine's `Calc`
returns 65280, so the claim as stated fails on the C++ Checksum Engine. -/
theorem claim_C1_counterexample :
    S2NDSCore.ChecksumCalc (some zeroBuf) 0 1 [] = 65280
    ∧ claimFormula zeroBuf 0 1 [] = 65536 := ⟨by decide, by decide⟩

/-- C1 witness: a concrete input with both accumulators nonzero, where the
truncated and exact formulas agree. -/
theorem claim_C1_witness :
    specByte1 oneBuf 0 1 [] ≠ 0 ∧ specByte2 oneBuf 0 1 [] ≠ 0
    ∧ claimFormulaTrunc oneBuf 0 1 [] = claimFormula oneBuf 0 1 [] :=
  ⟨by decide, by decide,
   (claim_C1_amended oneBuf 0 1 [] false).2.2.2 (by decide) (by decide)⟩

/-- C2 (confirmed): on every valid loaded container, immediately after
`Finish()` the 16-bit checksum field of each region that resolved to an
existing slot — each existing GBA slot, the GBA settings header, and each
resolved NDS slot — equals the Checksum Engine's `Calc` over that region's
range with its skip list. -/
theorem claim_C2 :
    (∀ (s : S2GBACore.SAV) (B : Buf), s.data = some B → s.savValid = true →
      (∀ slot, 1 ≤ slot → slot ≤ 4 → S2GBACore.SlotExist s slot = true →
        S2GBACore.Read16 (S2GBACore.Finish s) (slot * 0x1000 + 0xFFE)
          = S2GBACore.ChecksumCalc (S2GBACore.Finish s).data
              (slot * 0x1000 / 2) ((slot * 0x1000 + 0xFFE) / 2) false)
      ∧ S2GBACore.Read16 (S2GBACore.Finish s) 0xE
          = S2GBACore.ChecksumCalc (S2GBACore.Finish s).data 0 (0x18 / 2) true)
    ∧ (∀ (s : S2NDSCore.SAV) (B : Buf), s.data = some B → s.savValid = true →
        ∀ slot, slot ≤ 2 → S2NDSCore.SlotExist s slot = true →
        S2NDSCore.Read16 (S2NDSCore.Finish s)
            (S2NDSCore.toRegion (s.slots slot) * 0x1000 + 0x28)
          = S2NDSCore.ChecksumCalc (S2NDSCore.Finish s).data
              ((S2NDSCore.toRegion (s.slots slot) * 0x1000 + 0x10) / 2)
              ((S2NDSCore.toRegion (s.slots slot) * 0x1000 + 0x1000) / 2)
              [(S2NDSCore.toRegion (s.slots slot) * 0x1000 + 0x12) / 2,
               (S2NDSCore.toRegion (s.slots slot) * 0x1000 + 0x28) / 2]) := by
  constructor
  · intro s B hd hv
    obtain ⟨cm', he⟩ := S2GBACore.Finish_shape s B hd hv
    rw [he]
    constructor
    · intro slot h1 h4 hex
      have hse : S2GBACore.SlotExist s slot = S2GBACore.slotExistB B slot := by
        unfold S2GBACore.SlotExist; rw [hd]
      rw [hse] at hex
      exact S2GBACore.finishB_storedEq B slot h1 h4 hex
    · exact S2GBACore.finishB_settingsEq B
  · intro s B hd hv slot hslot hex
    have hne : s.slots slot ≠ -1 := by
      intro hcontra
      unfold S2NDSCore.SlotExist at hex
      rw [hv, hcontra] at hex
      simp [show ¬ 2 < slot from by omega] at hex
    obtain ⟨cm', he⟩ := S2NDSCore.NDSFinish_shape s B hd hv
    rw [he]
    exact S2NDSCore.ndsFinishB_storedEq s.slots B slot hslot hne

/-- C2 witness: concrete valid GBA and NDS containers on which `Finish`
leaves the settings header and the resolved slot checksum-correct. -/
theorem claim_C2_witness :
    S2GBACore.Read16 (S2GBACore.Finish gbaZeroState) 0xE
      = S2GBACore.ChecksumCalc (S2GBACore.Finish gbaZeroState).data 0 (0x18 / 2) true
    ∧ S2NDSCore.Read16 (S2NDSCore.Finish ndsWitState)
        (S2NDSCore.toRegion (ndsWitState.slots 0) * 0x1000 + 0x28)
      = S2NDSCore.ChecksumCalc (S2NDSCore.Finish ndsWitState).data
          ((S2NDSCore.toRegion (ndsWitState.slots 0) * 0x1000 + 0x10) / 2)
          ((S2NDSCore.toRegion (ndsWitState.slots 0) * 0x1000 + 0x1000) / 2)
          [(S2NDSCore.toRegion (ndsWitState.slots 0) * 0x1000 + 0x12) / 2,
           (S2NDSCore.toRegion (ndsWitState.slots 0) * 0x1000 + 0x28) / 2] :=
  ⟨(claim_C2.1 gbaZeroState zeroBuf rfl rfl).2,
   claim_C2.2 ndsWitState (ndsOneBuf 1) rfl rfl 0 (by omega) (by decide)⟩

/-- C3 (corrected): `FetchSlot` returns the scan-order-first claimant
achieving the maximal 32-bit save counter PROVIDED that maximum is
positive; when every claimant's counter is zero it returns the sentinel
`-1` instead of any claimant (the selection loop only accepts counters
strictly above the running maximum, initialized to 0). -/
theorem claim_C3_amended : ∀ (B : Buf) (savSlot reg : Nat),
    (∀ s, 0 < maxClaimCount B savSlot reg → firstMaxClaimant B savSlot reg = some s →
      S2NDSCore.FetchSlot B savSlot reg = (s : Int))
    ∧ (maxClaimCount B savSlot reg = 0 → S2NDSCore.FetchSlot B savSlot reg = -1) := by
  intro B a r
  constructor
  · intro s hpos hfirst
    obtain ⟨x, hx, hfs, -, -⟩ := FetchSlot_of_max_pos B a r hpos
    have hsx : s = x := by
      have := hfirst.symm.trans hx
      injection this
    rw [hsx]
    exact hfs
  · exact (FetchSlot_eq_neg_one_iff B a r).mpr

/-- C3 counterexample: two identified regions both claim logical slot 0
with save counter 0; the claim as stated demands the first claimant
(region 0) be returned, but `FetchSlot` returns `-1`. -/
theorem claim_C3_counterexample :
    claimantsList (ndsTwoBuf 0 0) 0 0 = [0, 1]
    ∧ S2NDSCore.FetchSlot (ndsTwoBuf 0 0) 0 0 = -1 := ⟨by decide, by decide⟩

/-- C3 witness: two claimants tie on the positive maximum 5 and the
scan-order-first (region 0) is returned. -/
theorem claim_C3_witness :
    0 < maxClaimCount (ndsTwoBuf 5 5) 0 0
    ∧ S2NDSCore.FetchSlot (ndsTwoBuf 5 5) 0 0 = 0 :=
  ⟨by decide, (claim_C3_amended (ndsTwoBuf 5 5) 0 0).1 0 (by decide) (by decide)⟩

/-- C4 (confirmed): calling `Finish()` twice in succession with no writes
in between leaves the buffer byte-identical to its state after the first
call, for both the GBA and the NDS container. -/
theorem claim_C4 :
    (∀ s : S2GBACore.SAV,
      (S2GBACore.Finish (S2GBACore.Finish s)).data = (S2GBACore.Finish s).data)
    ∧ (∀ s : S2NDSCore.SAV,
      (S2NDSCore.Finish (S2NDSCore.Finish s)).data = (S2NDSCore.Finish s).data) := by
  constructor
  · intro s
    by_cases hv : s.savValid = true
    · cases hd : s.data with
      | none =>
        rw [S2GBACore.Finish_no_data s hd, S2GBACore.Finish_no_data s hd]
      | some B =>
        obtain ⟨cm1, e1⟩ := S2GBACore.Finish_shape s B hd hv
        rw [e1]
        obtain ⟨cm2, e2⟩ := S2GBACore.Finish_shape
          ⟨some (S2GBACore.finishB B), s.size, true, cm1⟩ (S2GBACore.finishB B) rfl rfl
        rw [e2]
        dsimp only
        simp only [S2GBACore.finishB_idem]
    · have hv' : s.savValid = false := by revert hv; cases s.savValid <;> simp
      rw [S2GBACore.Finish_invalid s hv', S2GBACore.Finish_invalid s hv']
  · intro s
    by_cases hv : s.savValid = true
    · cases hd : s.data with
      | none =>
        rw [S2NDSCore.NDSFinish_no_data s hd, S2NDSCore.NDSFinish_no_data s hd]
      | some B =>
        obtain ⟨cm1, e1⟩ := S2NDSCore.NDSFinish_shape s B hd hv
        rw [e1]
        obtain ⟨cm2, e2⟩ := S2NDSCore.NDSFinish_shape
          ⟨some (S2NDSCore.finishB s.slots B), s.size, true, cm1, s.region, s.slots⟩
          (S2NDSCore.finishB s.slots B) rfl rfl
        rw [e2]
        dsimp only
        simp only [S2NDSCore.ndsFinishB_idem]
    · have hv' : s.savValid = false := by revert hv; cases s.savValid <;> simp
      rw [S2NDSCore.NDSFinish_invalid s hv', S2NDSCore.NDSFinish_invalid s hv']

/-- C5 (corrected): the NDS slot header checksum routine applies NO extra
increment relative to the generic algorithm — it merely omits the generic
final increment unless the marker byte at region-relative `0x13` is zero:
with a zero marker it coincides with the generic `Checksum_Calc` over the
header's word range (bytes `0x0..0x13` minus the checksum word), with a
nonzero marker it computes one increment less; a freshly zero-initialized
region's computed checksum, reduced to 16 bits, equals the stored zero
checksum field. -/
theorem claim_C5_amended : ∀ (B : Buf) (slot : Nat),
    (getU8 B (slot * 0x1000 + 0x13) = 0 →
      Checksum_CalcNDSSlotHeader B slot
        = Checksum_Calc B (slot * 0x1000 / 2) (slot * 0x1000 / 2 + 10)
            [slot * 0x1000 / 2 + 7])
    ∧ (getU8 B (slot * 0x1000 + 0x13) ≠ 0 →
      Checksum_CalcNDSSlotHeader B slot
        = claimFormulaNoInc B (slot * 0x1000 / 2) (slot * 0x1000 / 2 + 10)
            [slot * 0x1000 / 2 + 7])
    ∧ Checksum_CalcNDSSlotHeader zeroBuf 0 % 0x10000 = read16 zeroBuf 0xE :=
  fun B slot =>
    ⟨headerCalc_marker_zero B slot, headerCalc_marker_nonzero B slot, by decide⟩

/-- C5 counterexample: on the all-zero region (marker zero) the header
routine returns 65536, which equals the GENERIC algorithm over the same
range — not the claimed value 65280 obtained by one extra increment of
`Byte2` on top of the generic algorithm. -/
theorem claim_C5_counterexample :
    Checksum_CalcNDSSlotHeader zeroBuf 0 = 65536
    ∧ Checksum_Calc zeroBuf 0 10 [7] = 65536
    ∧ claimFormulaExtraInc zeroBuf 0 10 [7] = 65280 :=
  ⟨by decide, by decide, by decide⟩

/-- C5 witness: the zero region's marker is zero and the header routine
agrees with the generic engine there. -/
theorem claim_C5_witness :
    getU8 zeroBuf (0 * 0x1000 + 0x13) = 0
    ∧ Checksum_CalcNDSSlotHeader zeroBuf 0
        = Checksum_Calc zeroBuf (0 * 0x1000 / 2) (0 * 0x1000 / 2 + 10)
            [0 * 0x1000 / 2 + 7] :=
  ⟨by decide, (claim_C5_amended zeroBuf 0).1 (by decide)⟩

/-- C6 (corrected): the NDS loader rejects every buffer whose size is not
`0x40000` or `0x80000` with an invalid container holding no buffer, and the
shared `SAVUtils::DetectType` reports no save type for any size outside the
four whitelisted values (so `LoadSAV` fails with no partial load); the
source-tree GBA file loader itself, however, performs NO size check. -/
theorem claim_C6_amended :
    (∀ (B : Buf) (size : Nat), size ≠ 0x40000 → size ≠ 0x80000 →
      (S2NDSCore.loadFile B size).savValid = false
      ∧ (S2NDSCore.loadFile B size).data = none)
    ∧ (∀ (B : Buf) (size : Nat),
        size ≠ 0x10000 → size ≠ 0x20000 → size ≠ 0x40000 → size ≠ 0x80000 →
        S2Editor.DetectType B size = S2Editor.SAVType.NONE) := by
  constructor
  · intro B size h1 h2
    unfold S2NDSCore.loadFile
    rw [if_neg (fun hor => hor.elim h1 h2)]
    exact ⟨rfl, rfl⟩
  · intro B size h1 h2 h3 h4
    unfold S2Editor.DetectType
    rw [if_neg (fun hor => hor.elim h1 h2), if_neg (fun hor => hor.elim h3 h4)]

/-- C6 counterexample: a buffer exactly one byte short of the whitelisted
GBA size `0x10000` but carrying the 7-byte GBA magic is loaded as a VALID
container by the source-tree `GBASAV` constructor (which never checks the
size), contradicting the claim that every non-whitelisted size yields an
invalid container. -/
theorem claim_C6_counterexample :
    (S2Editor.loadFile gbaMagicBuf 0xFFFF).savValid = true := by decide

/-- C6 witness: a one-byte-short NDS load is rejected with no partial load,
and the type detector reports no save type one byte short of the GBA
size. -/
theorem claim_C6_witness :
    (S2NDSCore.loadFile gbaMagicBuf 0x3FFFF).savValid = false
    ∧ (S2NDSCore.loadFile gbaMagicBuf 0x3FFFF).data = none
    ∧ S2Editor.DetectType gbaMagicBuf 0xFFFF = S2Editor.SAVType.NONE :=
  ⟨(claim_C6_amended.1 gbaMagicBuf 0x3FFFF (by decide) (by decide)).1,
   (claim_C6_amended.1 gbaMagicBuf 0x3FFFF (by decide) (by decide)).2,
   claim_C6_amended.2 gbaMagicBuf 0xFFFF (by decide) (by decide) (by decide) (by decide)⟩

/-- C7 (corrected): `FetchSlot` returns `-1` iff no claimant with a
POSITIVE save counter exists — in particular it returns `-1` even when
claimant regions exist, whenever all their counters are zero; whenever some
claimant has a positive counter, it returns the index of a claimant. -/
theorem claim_C7_amended : ∀ (B : Buf) (savSlot reg : Nat),
    (S2NDSCore.FetchSlot B savSlot reg = -1 ↔ maxClaimCount B savSlot reg = 0)
    ∧ (0 < maxClaimCount B savSlot reg →
        ∃ s, s ∈ claimantsList B savSlot reg
          ∧ S2NDSCore.FetchSlot B savSlot reg = (s : Int)) := by
  intro B a r
  refine ⟨FetchSlot_eq_neg_one_iff B a r, ?_⟩
  intro h
  obtain ⟨s, -, hs, hmem, -⟩ := FetchSlot_of_max_pos B a r h
  exact ⟨s, hmem, hs⟩

/-- C7 counterexample: one identified region claims logical slot 0 with
save counter 0, yet `FetchSlot` returns `-1` — refuting the claim that a
claimant with counter 0 suffices for a non-sentinel result. -/
theorem claim_C7_counterexample :
    claimantsList (ndsOneBuf 0) 0 0 = [0]
    ∧ S2NDSCore.FetchSlot (ndsOneBuf 0) 0 0 = -1 := ⟨by decide, by decide⟩

/-- C7 witness: with one claimant of counter 1, `FetchSlot` returns a
claimant index. -/
theorem claim_C7_witness :
    0 < maxClaimCount (ndsOneBuf 1) 0 0
    ∧ ∃ s, s ∈ claimantsList (ndsOneBuf 1) 0 0
        ∧ S2NDSCore.FetchSlot (ndsOneBuf 1) 0 0 = (s : Int) :=
  ⟨by decide, (claim_C7_amended (ndsOneBuf 1) 0 0).2 (by decide)⟩

/-- C8 (confirmed): loading a buffer whose first 7 bytes are the GBA magic
and whose language byte at `0xA` exceeds 5 yields a VALID container whose
language byte has been clamped to 0 with the dirty flag raised — all inside
the validation pass of the source-tree GBA loader. -/
theorem claim_C8 : ∀ B : Buf,
    (List.range 7).all (fun i => decide (getU8 B i = GBAIdentBytes.getD i 0)) = true →
    5 < getU8 B 0xA →
    (S2Editor.loadFile B 0x10000).savValid = true
    ∧ (∀ B', (S2Editor.loadFile B 0x10000).data = some B' → getU8 B' 0xA = 0)
    ∧ (S2Editor.loadFile B 0x10000).changesMade = true := by
  intro B hmagic hlang
  have hd : (S2Editor.loadFile B 0x10000).data = some (setU8 B 0xA 0) := by
    show some (if 5 < getU8 B 0xA then setU8 B 0xA 0 else B) = some (setU8 B 0xA 0)
    rw [if_pos hlang]
  refine ⟨hmagic, ?_, ?_⟩
  · intro B' hB'
    rw [hd] at hB'
    have hB2 : B' = setU8 B 0xA 0 := by injection hB' with h; exact h.symm
    rw [hB2, getU8_setU8_self]
  · show (if 5 < getU8 B 0xA then true else false) = true
    rw [if_pos hlang]

/-- C8 witness: the concrete magic buffer with language byte 7. -/
theorem claim_C8_witness :
    (List.range 7).all
        (fun i => decide (getU8 gbaMagicLang7Buf i = GBAIdentBytes.getD i 0)) = true
    ∧ 5 < getU8 gbaMagicLang7Buf 0xA
    ∧ (S2Editor.loadFile gbaMagicLang7Buf 0x10000).savValid = true
    ∧ (S2Editor.loadFile gbaMagicLang7Buf 0x10000).changesMade = true
    ∧ getU8 (setU8 gbaMagicLang7Buf 0xA 0) 0xA = 0 :=
  ⟨by decide, by decide,
   (claim_C8 gbaMagicLang7Buf (by decide) (by decide)).1,
   (claim_C8 gbaMagicLang7Buf (by decide) (by decide)).2.2,
   (claim_C8 gbaMagicLang7Buf (by decide) (by decide)).2.1 (setU8 gbaMagicLang7Buf 0xA 0) rfl⟩

/-- C9 (corrected): out-of-range writes never produce an error, but only
the numeric setters clamp to the field's maximum (Simoleons to 999999);
the enumerated setters Hairstyle (`> 7`) and SFX volume (`> 10`) silently
IGNORE the write, leaving the container — and hence the stored byte —
completely unchanged. -/
theorem claim_C9_amended :
    (∀ (s : S2GBACore.SAV) (B : Buf) (offs v : Nat),
      s.data = some B → s.savValid = true → 999999 < v →
      S2GBACore.SimoleonsGet offs (S2GBACore.SimoleonsSet offs s v) = 999999)
    ∧ (∀ (s : S2GBACore.SAV) (offs v : Nat), 7 < v →
        S2GBACore.HairstyleSet offs s v = s)
    ∧ (∀ (s : S2GBACore.SAV) (v : Nat), 10 < v → S2GBACore.SFXSet s v = s) := by
  refine ⟨?_, ?_, ?_⟩
  · intro s B offs v hd hv hgt
    obtain ⟨d, sz, vl, cm⟩ := s
    simp only at hd hv
    subst hd; subst hv
    have h1 : S2GBACore.SimoleonsSet offs (⟨some B, sz, true, cm⟩ : S2GBACore.SAV) v
        = S2GBACore.Write32 ⟨some B, sz, true, cm⟩ (offs + 0x5) (999999 * 256) := by
      unfold S2GBACore.SimoleonsSet
      rw [Nat.min_eq_left (by omega)]
    rw [h1]
    have h2 : S2GBACore.SimoleonsGet offs
        (S2GBACore.Write32 (⟨some B, sz, true, cm⟩ : S2GBACore.SAV) (offs + 0x5) (999999 * 256))
        = read32 (write32 B (offs + 0x5) (999999 * 256)) (offs + 0x5) / 256 := rfl
    rw [h2, read32_write32_self _ _ _ (by norm_num)]
  · intro s offs v h
    unfold S2GBACore.HairstyleSet
    rw [if_pos h]
  · intro s v h
    unfold S2GBACore.SFXSet
    rw [if_pos h]

/-- C9 counterexample: byte `0x8` (SFX volume) holds `0xAA` — a value not
in the `SFXLevels` table; after the out-of-range write `SFX(11)` the field
still holds `0xAA`, not the claimed valid maximum (`SFXLevels[10] = 0x80`)
nor any enumerated value. -/
theorem claim_C9_counterexample :
    S2GBACore.SFXGet (S2GBACore.SFXSet gbaSFXState 11) = 0xAA
    ∧ (0xAA : Nat) ∉ S2GBACore.SFXLevels
    ∧ S2GBACore.SFXLevels.getD 10 0 = 0x80 :=
  ⟨by decide, by decide, by decide⟩

/-- C9 witness: the clamping and rejecting behaviours at concrete inputs. -/
theorem claim_C9_witness :
    S2GBACore.SimoleonsGet 0x1000 (S2GBACore.SimoleonsSet 0x1000 gbaSlotState 1000000) = 999999
    ∧ S2GBACore.HairstyleSet 0x1000 gbaSlotState 8 = gbaSlotState
    ∧ S2GBACore.SFXSet gbaSlotState 11 = gbaSlotState :=
  ⟨claim_C9_amended.1 gbaSlotState zeroBuf 0x1000 1000000 rfl rfl (by decide),
   claim_C9_amended.2.1 gbaSlotState 0x1000 8 (by decide),
   claim_C9_amended.2.2 gbaSlotState 11 (by decide)⟩

/-- C10 (code bug): the compressed GBA core's `ValidationCheck` loop runs
`Idx` from 0 to 7 inclusive over the 7-element `GBAIdent` array, so on any
buffer whose first 7 bytes match the magic (i.e. every actually valid GBA
save) the comparison at `Idx = 7` reads `GBAIdent[7]`, one element past the
end of the array. -/
theorem claim_C10_theorem :
    7 ∈ S2GBACore.validationIdentReads gbaMagicBuf
    ∧ GBAIdentBytes.length = 7 := ⟨by decide, by decide⟩

end Sim2
